import Mathlib

/-!
Verification of the sandbox core (`vumi/application/sandbox.py`).

This file shallowly embeds the parts of the module that the verified claims
are about:

* the JSON line protocol and `SandboxCommand` field defaulting,
* `SandboxApi.dispatch_request` and the resource dispatch layer,
* the `SandboxProtocol` stream demultiplexer and byte accounting,
* `MultiDeferred` (the one-shot broadcast primitive),
* the drain performed by `SandboxProtocol.processEnded`,
* `RedisResource` (the key/value resource with per-sandbox quotas).

Python dictionaries are modelled as association lists over `String` keys
(`alookup` is `dict.get`, `fset` is item assignment, `aerase` is `del`).
Byte strings flowing over the child's streams are modelled as `List Char`.
External collaborators (the `json` codec, the redis backing store, Twisted
deferred machinery) are modelled by their documented interface behaviour and
are parameters of the definitions that use them, exactly where the source
calls out to them.
-/

/-- JSON values: the payloads of commands and of the key/value store.
Numbers are modelled as integers (the protocol payloads the claims are about
are integral). -/
inductive JValue where
  | null
  | bool (b : Bool)
  | num (n : Int)
  | str (s : String)
  | arr (elems : List JValue)
  | obj (fields : List (String × JValue))

/-- A Python dict with string keys, as used for `Message` payloads. -/
abbrev Fields := List (String × JValue)

/-- Model of `dict.get`: the value at a key, if present (first binding wins). -/
def alookup {β : Type} : List (String × β) → String → Option β
  | [], _ => none
  | (k, v) :: fs, key => if k = key then some v else alookup fs key

/-- Model of dict item assignment: replace the binding in place, or append. -/
def fset {β : Type} : List (String × β) → String → β → List (String × β)
  | [], key, v => [(key, v)]
  | (k, w) :: fs, key, v => if k = key then (key, v) :: fs else (k, w) :: fset fs key v

/-- Model of dict item deletion. -/
def aerase {β : Type} : List (String × β) → String → List (String × β)
  | [], _ => []
  | (k, w) :: fs, key => if k = key then aerase fs key else (k, w) :: aerase fs key

/-- Model of `dict.setdefault`, as used by `SandboxCommand.process_fields`. -/
def setdefault (fs : Fields) (key : String) (v : JValue) : Fields :=
  match alookup fs key with
  | some _ => fs
  | none => fs ++ [(key, v)]

/-- `SandboxCommand.process_fields`: default `cmd` to `"unknown"`, `cmd_id` to a
generated identifier (the generator is a parameter, since the source draws it
from `uuid4`), and `reply` to `False`.  `validate_fields` only asserts the
presence of these three fields, which the defaulting guarantees, so it needs no
separate model. -/
def mkSandboxCommand (genId : String) (fields : Fields) : Fields :=
  setdefault (setdefault (setdefault fields "cmd" (JValue.str "unknown")) "cmd_id"
    (JValue.str genId)) "reply" (JValue.bool false)

/-- `SandboxCommand.from_json`: parse the line with the external `json` codec
(a parameter; failures are its exception message) and apply field defaulting. -/
def SandboxCommand.from_json (jsonParse : String → Except String Fields)
    (genId : String) (line : String) : Except String Fields :=
  match jsonParse line with
  | Except.error e => Except.error e
  | Except.ok fields => Except.ok (mkSandboxCommand genId fields)

/-- `SandboxProtocol._parse_command`: parse a line; on any parse failure build
a command with `cmd = "unknown"`, the raw line under `line` and the parse error
under `exception`. -/
def parse_command (jsonParse : String → Except String Fields)
    (genId : String) (line : String) : Fields :=
  match SandboxCommand.from_json jsonParse genId line with
  | Except.ok c => c
  | Except.error e =>
      mkSandboxCommand genId
        [("cmd", JValue.str "unknown"), ("line", JValue.str line),
         ("exception", JValue.str e)]

/-- The numeric value of `logging.ERROR` in the Python standard library. -/
def logging_ERROR : Nat := 40

/-- Python `"%r" % s` for a string (quoting; escaping of special characters
inside the string is not modelled, no claim depends on it). -/
def pyRepr (s : String) : String := "'" ++ s ++ "'"

/-- Outcome of running one resource handler: its returned reply (`none` models
Python `None`, suppressing the reply), or the message of the exception it
raised; plus the `api.log` calls and `api.sandbox_kill` calls it made. -/
structure HandlerOut where
  result : Except String (Option Fields)
  logs : List (String × Nat)
  killed : Bool

/-- A sandbox resource: its name and its `handle_<operation>` methods, looked
up by operation name (the source does `getattr(self, 'handle_%s' % cmd, ...)`).
Handlers take the command and produce a `HandlerOut`. -/
structure SandboxResource where
  name : String
  handlers : String → Option (Fields → HandlerOut)

/-- The string a command's `cmd` field holds (dispatch always stores a string
there before a handler is looked up). -/
def strOfJ : Option JValue → String
  | some (JValue.str s) => s
  | _ => ""

/-- The message logged by `SandboxResource.unknown_request`.  The source also
interpolates the `repr` of the full command dict; that trailing interpolation
is abstracted away, no claim inspects it. -/
def unknownMsg (name cmd sandbox_id : String) : String :=
  "Resource " ++ name ++ " received unknown command " ++ pyRepr cmd ++
    " from sandbox " ++ pyRepr sandbox_id ++ ". Killing sandbox."

/-- `SandboxResource.unknown_request`: log via the sandbox api at ERROR level
and kill the sandbox; no reply is returned. -/
def SandboxResource.unknown_request (self : SandboxResource) (sandbox_id : String)
    (command : Fields) : HandlerOut :=
  { result := Except.ok none
  , logs := [(unknownMsg self.name (strOfJ (alookup command "cmd")) sandbox_id,
              logging_ERROR)]
  , killed := true }

/-- `SandboxResource.dispatch_request`: look up `handle_<cmd>`, falling back to
`unknown_request`.  (`maybeDeferred` turns a raised exception into a failed
deferred; that failure is the `Except.error` carried in `HandlerOut.result`.) -/
def SandboxResource.dispatch_request (self : SandboxResource) (sandbox_id : String)
    (command : Fields) : HandlerOut :=
  match self.handlers (strOfJ (alookup command "cmd")) with
  | some h => h command
  | none => self.unknown_request sandbox_id command

/-- `SandboxApi.__init__` builds `SandboxResource("fallback", None, {})`: a base
resource with no `handle_*` methods of its own. -/
def fallback_resource : SandboxResource :=
  { name := "fallback", handlers := fun _ => none }

/-- Split a character list at the first `'.'`, if any (helper for
`str.partition`). -/
def breakDot : List Char → Option (List Char × List Char)
  | [] => none
  | c :: cs =>
    if c = '.' then some ([], cs)
    else
      match breakDot cs with
      | some (a, b) => some (c :: a, b)
      | none => none

/-- Python `s.partition('.')`: `(before, ".", after)` at the first dot, or
`(s, "", "")` when there is no dot. -/
def partitionDot (s : String) : String × String × String :=
  match breakDot s.data with
  | some (a, b) => (String.mk a, ".", String.mk b)
  | none => (s, "", "")

/-- Externally visible effects of one `SandboxApi.dispatch_request` call:
the reply written to the child's stdin (if any), the `log.error` calls made to
the system (Twisted) log, the `api.log` calls, and whether the child was
killed. -/
structure DispatchOut where
  sent : Option Fields
  sysLogs : List String
  apiLogs : List (String × Nat)
  killed : Bool

/-- `SandboxApi.dispatch_request`: split the command name at the first dot
(an undotted name goes to the resource named `""`, hence normally the fallback
resource), rewrite `cmd` to the operation part, dispatch to the resource, and
on a handler exception log it to both the system and the sandbox log and build
a synthetic failure reply with the original `cmd_id`.  A returned reply gets
the full dotted name restored before being sent.  The outer `Except.error` is
the (unreached in practice) `AttributeError` a non-string `cmd` would raise
before the `try` block. -/
def SandboxApi.dispatch_request (resources : List (String × SandboxResource))
    (genId : String) (sandbox_id : String) (command : Fields) :
    Except String DispatchOut :=
  match alookup command "cmd" with
  | some (JValue.str cmdStr) =>
    match partitionDot cmdStr with
    | (rn0, sep, rest0) =>
      let resource_name := if sep = "" then "" else rn0
      let rest := if sep = "" then rn0 else rest0
      let command1 := fset command "cmd" (JValue.str rest)
      let resource := (alookup resources resource_name).getD fallback_resource
      let hout := resource.dispatch_request sandbox_id command1
      match hout.result with
      | Except.ok none =>
          Except.ok { sent := none, sysLogs := [], apiLogs := hout.logs,
                      killed := hout.killed }
      | Except.ok (some rep) =>
          Except.ok { sent := some (fset rep "cmd"
                        (JValue.str (resource_name ++ sep ++ rest)))
                    , sysLogs := [], apiLogs := hout.logs, killed := hout.killed }
      | Except.error e =>
          let rep := mkSandboxCommand genId
            [("reply", JValue.bool true),
             ("cmd_id", (alookup command1 "cmd_id").getD JValue.null),
             ("success", JValue.bool false),
             ("reason", JValue.str e)]
          Except.ok { sent := some (fset rep "cmd"
                        (JValue.str (resource_name ++ sep ++ rest)))
                    , sysLogs := [e]
                    , apiLogs := hout.logs ++ [(e, logging_ERROR)]
                    , killed := hout.killed }
  | _ => Except.error "AttributeError: cmd is not a string"

/-- Per-child state of `SandboxProtocol` (the slots set in `__init__` that the
stream machinery touches), together with the externally visible effects the
claims are about: the commands handed to `api.dispatch_request` (the source
appends the resulting deferreds to `_pending_requests`), the `api.log` calls,
and whether `kill()` was invoked. -/
structure SandboxProtocol where
  sandbox_id : String
  recv_limit : Nat
  recv_bytes : Nat
  chunk : List Char
  error_chunk : List Char
  pending_requests : List Fields
  logs : List (String × Nat)
  killed : Bool

/-- The protocol state right after `__init__`. -/
def initProtocol (sandbox_id : String) (recv_limit : Nat) : SandboxProtocol :=
  { sandbox_id := sandbox_id, recv_limit := recv_limit, recv_bytes := 0,
    chunk := [], error_chunk := [], pending_requests := [], logs := [],
    killed := false }

/-- The ERROR message logged when the output budget is exceeded. -/
def budgetMsg (sandbox_id : String) : String :=
  "Sandbox " ++ pyRepr sandbox_id ++
    " killed for producing too much data on stderr and stdout."

/-- `SandboxProtocol.check_recv`: charge `nbytes` to the byte counter; within
the limit return `True`, otherwise kill the child, log at ERROR, and return
`False`. -/
def SandboxProtocol.check_recv (self : SandboxProtocol) (nbytes : Nat) :
    Bool × SandboxProtocol :=
  let self1 := { self with recv_bytes := self.recv_bytes + nbytes }
  if self1.recv_bytes ≤ self1.recv_limit then (true, self1)
  else (false, { self1 with
                 killed := true,
                 logs := self1.logs ++ [(budgetMsg self1.sandbox_id, logging_ERROR)] })

/-- Python `data.split("\n")` on byte strings modelled as `List Char`:
splitting the empty string yields `[""]`, and every `'\n'` starts a new part. -/
def splitNl : List Char → List (List Char)
  | [] => [[]]
  | c :: cs =>
    if c = '\n' then [] :: splitNl cs
    else
      match splitNl cs with
      | [] => [[c]]
      | p :: ps => (c :: p) :: ps

/-- `line_parts[0] = chunk + line_parts[0]` from `_process_data`. -/
def prependHead (chunk : List Char) : List (List Char) → List (List Char)
  | [] => [chunk]
  | p :: ps => (chunk ++ p) :: ps

/-- `SandboxProtocol._process_data`: charge the chunk to the budget; if that
fails the data is skipped (`['']`), otherwise split at newlines and glue the
carry onto the first part. -/
def SandboxProtocol.process_data (self : SandboxProtocol) (chunk : List Char)
    (data : List Char) : List (List Char) × SandboxProtocol :=
  match self.check_recv data.length with
  | (false, self1) => ([[]], self1)
  | (true, self1) => (prependHead chunk (splitNl data), self1)

/-- `SandboxProtocol.outReceived`: every complete stdout line is parsed and
dispatched (the dispatch task is appended to `_pending_requests`); the trailing
fragment becomes the new carry.  `parse` is `_parse_command` with its parser
and id generator fixed. -/
def SandboxProtocol.outReceived (parse : List Char → Fields)
    (self : SandboxProtocol) (data : List Char) : SandboxProtocol :=
  match self.process_data self.chunk data with
  | (lines, self1) =>
    { self1 with
      pending_requests := self1.pending_requests ++ (lines.dropLast).map parse,
      chunk := lines.getLastD [] }

/-- `SandboxProtocol.outConnectionLost`: a non-empty stdout carry is dispatched
as one final line. -/
def SandboxProtocol.outConnectionLost (parse : List Char → Fields)
    (self : SandboxProtocol) : SandboxProtocol :=
  if self.chunk = [] then self
  else
    { self with
      pending_requests := self.pending_requests ++ [parse self.chunk],
      chunk := [] }

/-- `SandboxProtocol.errReceived`: every complete stderr line is forwarded to
`api.log` at ERROR level; the trailing fragment becomes the new carry. -/
def SandboxProtocol.errReceived (self : SandboxProtocol) (data : List Char) :
    SandboxProtocol :=
  match self.process_data self.error_chunk data with
  | (lines, self1) =>
    { self1 with
      logs := self1.logs ++
        (lines.dropLast).map (fun l => (String.mk l, logging_ERROR)),
      error_chunk := lines.getLastD [] }

/-- `SandboxProtocol.errConnectionLost`: a non-empty stderr carry is logged as
one final line. -/
def SandboxProtocol.errConnectionLost (self : SandboxProtocol) : SandboxProtocol :=
  if self.error_chunk = [] then self
  else
    { self with
      logs := self.logs ++ [(String.mk self.error_chunk, logging_ERROR)],
      error_chunk := [] }

/-- One OS-level event on the child's output streams. -/
inductive StreamEvent where
  | out (data : List Char)
  | err (data : List Char)
  | outClosed
  | errClosed

/-- Deliver one stream event to the protocol. -/
def stepProtocol (parse : List Char → Fields) (self : SandboxProtocol) :
    StreamEvent → SandboxProtocol
  | StreamEvent.out data => self.outReceived parse data
  | StreamEvent.err data => self.errReceived data
  | StreamEvent.outClosed => self.outConnectionLost parse
  | StreamEvent.errClosed => self.errConnectionLost

/-- Deliver a sequence of stream events (one run of the protocol). -/
def runProtocol (parse : List Char → Fields) (self : SandboxProtocol)
    (evs : List StreamEvent) : SandboxProtocol :=
  evs.foldl (stepProtocol parse) self

/-- World of one `MultiDeferred` together with every waiter deferred it has
handed out.  `result = none` models the `NOT_FIRED` sentinel; `queued` is the
`_deferreds` list of waiters not yet fired; `waiters` records, for every
deferred ever returned by `get()`, whether (and with what) it has been
called back. -/
structure MDWorld (α : Type) where
  result : Option α
  queued : List Nat
  waiters : List (Nat × Option α)
  nextId : Nat

/-- A fresh `MultiDeferred()`. -/
def mdInit {α : Type} : MDWorld α :=
  { result := none, queued := [], waiters := [], nextId := 0 }

/-- `MultiDeferred.fired`: whether `_result` is no longer the sentinel. -/
def MDWorld.fired {α : Type} (w : MDWorld α) : Bool := w.result.isSome

/-- `MultiDeferred.get`: a new deferred; called back immediately when already
fired, otherwise queued. -/
def MDWorld.get {α : Type} (w : MDWorld α) : Nat × MDWorld α :=
  let i := w.nextId
  if w.fired then
    (i, { w with waiters := w.waiters ++ [(i, w.result)], nextId := i + 1 })
  else
    (i, { w with
          waiters := w.waiters ++ [(i, none)],
          queued := w.queued ++ [i], nextId := i + 1 })

/-- `MultiDeferred.callback`: record the result, fire every queued waiter with
it, and clear the queue. -/
def MDWorld.callback {α : Type} (w : MDWorld α) (r : α) : MDWorld α :=
  { result := some r
  , queued := []
  , waiters := w.waiters.map (fun p => if p.1 ∈ w.queued then (p.1, some r) else p)
  , nextId := w.nextId }

/-- Operations a client can perform on a `MultiDeferred`. -/
inductive MDOp (α : Type) where
  | get
  | callback (r : α)

/-- Apply one operation. -/
def mdStep {α : Type} (w : MDWorld α) : MDOp α → MDWorld α
  | MDOp.get => (w.get).2
  | MDOp.callback r => w.callback r

/-- Apply a sequence of operations. -/
def mdRun {α : Type} (w : MDWorld α) (ops : List (MDOp α)) : MDWorld α :=
  ops.foldl mdStep w

/-- Whether an operation sequence contains a `callback`. -/
def hasCallback {α : Type} (ops : List (MDOp α)) : Bool :=
  ops.any (fun op => match op with | MDOp.callback _ => true | MDOp.get => false)

/-- The `reason` argument of `processEnded`: either `ProcessDone` carrying the
exit status, or any other termination failure. -/
inductive TermReason where
  | processDone (status : Int)
  | failed (message : String)
deriving DecidableEq

/-- What `_done` is eventually fired with. -/
inductive DoneValue where
  | status (s : Int)
  | failureOf (message : String)
deriving DecidableEq

/-- The result selection of `processEnded` (lines 184-187): the exit status for
a `ProcessDone`, the failure itself otherwise. -/
def exitResult : TermReason → DoneValue
  | TermReason.processDone s => DoneValue.status s
  | TermReason.failed m => DoneValue.failureOf m

/-- The drain set up by `processEnded`: a `DeferredList` over the pending
request deferreds, whose firing calls `_done.callback(result)`.  `settled`
holds the fired-flags of the pending deferreds; `doneFires` records every call
made to `_done.callback`. -/
structure DrainState where
  settled : List Bool
  doneFires : List DoneValue
deriving DecidableEq

/-- Whether every pending request deferred has fired. -/
def allSettled (st : DrainState) : Bool := st.settled.all (fun b => b)

/-- Construct the `DeferredList` over deferreds whose current fired-flags are
`pre`.  Twisted's `DeferredList` fires as soon as all constituents have fired,
so it fires immediately when `pre` is all-true (in particular when it is
empty). -/
def mkDrain (result : DoneValue) (pre : List Bool) : DrainState :=
  if pre.all (fun b => b) then { settled := pre, doneFires := [result] }
  else { settled := pre, doneFires := [] }

/-- One pending request deferred fires.  Firing an already-fired deferred is
impossible (a Twisted deferred fires at most once), so it is a no-op here, as
is an out-of-range index.  When the last constituent fires, the `DeferredList`
fires and its callback chain calls `_done.callback(result)`. -/
def settleStep (result : DoneValue) (st : DrainState) (i : Nat) : DrainState :=
  if st.settled.getD i true then st
  else
    let s := st.settled.set i true
    if s.all (fun b => b) then { settled := s, doneFires := st.doneFires ++ [result] }
    else { st with settled := s }

/-- Run a sequence of settle events against the drain. -/
def runDrain (result : DoneValue) (st : DrainState) (evs : List Nat) : DrainState :=
  evs.foldl (settleStep result) st

/-- Direct effects of `SandboxProtocol.processEnded` (lines 181-193): the armed
timeout task is cancelled; `started` is fired with a failure when it has not
fired yet; the result is selected from the reason; and the drain over the
pending requests is set up. -/
structure ProcessEndedOut where
  timeoutCancelled : Bool
  startedFiredWithFailure : Bool
  result : DoneValue
  drain : DrainState

/-- `SandboxProtocol.processEnded`. -/
def processEnded (timeoutActive : Bool) (startedAlreadyFired : Bool)
    (reason : TermReason) (pre : List Bool) : ProcessEndedOut :=
  { timeoutCancelled := timeoutActive
  , startedFiredWithFailure := !startedAlreadyFired
  , result := exitResult reason
  , drain := mkDrain (exitResult reason) pre }

/-- A value held by the redis backing store.  Redis stores byte strings;
strings currently holding a decimal integer (the only ones `INCR` accepts) are
kept in parsed form so that `INCR` is arithmetic, which is observationally the
same store. -/
inductive RVal where
  | str (s : String)
  | int (n : Int)
deriving DecidableEq

/-- The byte string a stored value reads back as. -/
def RVal.asString : RVal → String
  | RVal.str s => s
  | RVal.int n => toString n

/-- The redis backing store (external collaborator), keyed by byte string. -/
abbrev RedisState := List (String × RVal)

/-- Decimal digit value, for redis's integer parsing. -/
def digitVal (c : Char) : Option Nat :=
  if '0' ≤ c ∧ c ≤ '9' then some (c.toNat - '0'.toNat) else none

/-- Parse a non-empty digit string. -/
def digitsVal : Nat → List Char → Option Nat
  | acc, [] => some acc
  | acc, c :: cs =>
    match digitVal c with
    | some d => digitsVal (acc * 10 + d) cs
    | none => none

/-- Model of redis's strict decimal integer parsing (used by `INCR`). -/
def parseIntStr (s : String) : Option Int :=
  match s.data with
  | [] => none
  | '-' :: cs =>
    match cs with
    | [] => none
    | _ => (digitsVal 0 cs).map (fun n => -(n : Int))
  | cs => (digitsVal 0 cs).map (fun n => (n : Int))

/-- Redis `EXISTS`. -/
def redisExists (st : RedisState) (key : String) : Bool :=
  (alookup st key).isSome

/-- Redis `GET` (the raw byte string). -/
def redisGet (st : RedisState) (key : String) : Option String :=
  (alookup st key).map RVal.asString

/-- Redis `SET` (handlers always store JSON-encoded strings). -/
def redisSet (st : RedisState) (key : String) (value : String) : RedisState :=
  fset st key (RVal.str value)

/-- Redis `DEL`, returning whether the key existed. -/
def redisDelete (st : RedisState) (key : String) : RedisState × Bool :=
  (aerase st key, redisExists st key)

/-- Redis `INCRBY`: a missing key counts as 0; a stored non-integer string is
an error (which the redis client raises as an exception). -/
def redisIncr (st : RedisState) (key : String) (amount : Int) :
    Except String (RedisState × Int) :=
  match alookup st key with
  | none => Except.ok (fset st key (RVal.int amount), amount)
  | some (RVal.int n) => Except.ok (fset st key (RVal.int (n + amount)), n + amount)
  | some (RVal.str s) =>
    match parseIntStr s with
    | some n => Except.ok (fset st key (RVal.int (n + amount)), n + amount)
    | none => Except.error "value is not an integer or out of range"

/-- `RedisResource._count_key`: `"#".join(["count", sandbox_id])`. -/
def count_key (sandbox_id : String) : String := "count#" ++ sandbox_id

/-- `RedisResource._sandboxed_key`: `"#".join(["sandboxes", sandbox_id, key])`. -/
def sandboxed_key (sandbox_id key : String) : String :=
  "sandboxes#" ++ sandbox_id ++ "#" ++ key

/-- `SandboxResource.reply`: a fresh reply command carrying the request's `cmd`
and `cmd_id`, `reply = True`, and the keyword arguments.  (All commands that
reach a handler carry `cmd` and `cmd_id`, the parser defaults them; the
defaults taken here for a malformed command stand in for the `KeyError` that
path would raise.) -/
def SandboxResource.reply (command : Fields) (kwargs : Fields) : Fields :=
  mkSandboxCommand ""
    ([("cmd", (alookup command "cmd").getD (JValue.str "unknown")),
      ("reply", JValue.bool true),
      ("cmd_id", (alookup command "cmd_id").getD JValue.null)] ++ kwargs)

/-- `RedisResource._too_many_keys`. -/
def too_many_keys (command : Fields) : Fields :=
  SandboxResource.reply command
    [("success", JValue.bool false), ("reason", JValue.str "Too many keys")]

/-- Read the string-valued field the key-deriving code uses; anything else
models the `TypeError` Python's string join would raise there. -/
def fieldStr (command : Fields) (name : String) : Except String String :=
  match alookup command name with
  | some (JValue.str s) => Except.ok s
  | _ => Except.error "TypeError: string expected"

/-- `RedisResource.check_keys`: an existing key is free; a new key bumps the
per-sandbox counter and is rejected (rolling the bump back) when the counter
would exceed the quota. -/
def RedisResource.check_keys (keys_per_user : Int) (st : RedisState)
    (sandbox_id key : String) : Except String (Bool × RedisState) :=
  if redisExists st key then Except.ok (true, st)
  else
    match redisIncr st (count_key sandbox_id) 1 with
    | Except.error e => Except.error e
    | Except.ok (st1, c) =>
      if c > keys_per_user then
        match redisIncr st1 (count_key sandbox_id) (-1) with
        | Except.error e => Except.error e
        | Except.ok (st2, _) => Except.ok (false, st2)
      else Except.ok (true, st1)

/-- `RedisResource.handle_set`.  `dumps` is the external `json.dumps`; an
absent `value` field is Python `None`, i.e. JSON null. -/
def RedisResource.handle_set (dumps : JValue → String) (keys_per_user : Int)
    (st : RedisState) (sandbox_id : String) (command : Fields) :
    Except String (Fields × RedisState) :=
  match fieldStr command "key" with
  | Except.error e => Except.error e
  | Except.ok k =>
    let key := sandboxed_key sandbox_id k
    match RedisResource.check_keys keys_per_user st sandbox_id key with
    | Except.error e => Except.error e
    | Except.ok (false, st1) => Except.ok (too_many_keys command, st1)
    | Except.ok (true, st1) =>
      let value := (alookup command "value").getD JValue.null
      Except.ok (SandboxResource.reply command [("success", JValue.bool true)],
                 redisSet st1 key (dumps value))

/-- `RedisResource.handle_get`.  `loads` is the external `json.loads`; a
missing key replies with `value = null`, and a raw value `loads` rejects is the
propagating decode exception. -/
def RedisResource.handle_get (loads : String → Option JValue) (st : RedisState)
    (sandbox_id : String) (command : Fields) :
    Except String (Fields × RedisState) :=
  match fieldStr command "key" with
  | Except.error e => Except.error e
  | Except.ok k =>
    let key := sandboxed_key sandbox_id k
    match redisGet st key with
    | none =>
      Except.ok (SandboxResource.reply command
        [("success", JValue.bool true), ("value", JValue.null)], st)
    | some raw =>
      match loads raw with
      | none => Except.error "ValueError: could not decode JSON"
      | some v =>
        Except.ok (SandboxResource.reply command
          [("success", JValue.bool true), ("value", v)], st)

/-- `RedisResource.handle_delete`: delete, and decrement the counter only when
the key actually existed. -/
def RedisResource.handle_delete (st : RedisState) (sandbox_id : String)
    (command : Fields) : Except String (Fields × RedisState) :=
  match fieldStr command "key" with
  | Except.error e => Except.error e
  | Except.ok k =>
    let key := sandboxed_key sandbox_id k
    match redisDelete st key with
    | (st1, existed) =>
      if existed then
        match redisIncr st1 (count_key sandbox_id) (-1) with
        | Except.error e => Except.error e
        | Except.ok (st2, _) =>
          Except.ok (SandboxResource.reply command
            [("success", JValue.bool true), ("existed", JValue.bool true)], st2)
      else
        Except.ok (SandboxResource.reply command
          [("success", JValue.bool true), ("existed", JValue.bool false)], st1)

/-- `RedisResource.handle_incr`: quota check, then `INCRBY` with the `amount`
field defaulting to 1; only an exception from the backing-store increment is
caught and turned into a failure reply (a non-integer `amount` also surfaces
inside that `try`, via the redis client). -/
def RedisResource.handle_incr (keys_per_user : Int) (st : RedisState)
    (sandbox_id : String) (command : Fields) :
    Except String (Fields × RedisState) :=
  match fieldStr command "key" with
  | Except.error e => Except.error e
  | Except.ok k =>
    let key := sandboxed_key sandbox_id k
    match RedisResource.check_keys keys_per_user st sandbox_id key with
    | Except.error e => Except.error e
    | Except.ok (false, st1) => Except.ok (too_many_keys command, st1)
    | Except.ok (true, st1) =>
      let incrRes : Except String (RedisState × Int) :=
        match (alookup command "amount").getD (JValue.num 1) with
        | JValue.num n => redisIncr st1 key n
        | _ => Except.error "TypeError: amount must be an integer"
      match incrRes with
      | Except.error e =>
        Except.ok (SandboxResource.reply command
          [("success", JValue.bool false), ("reason", JValue.str e)], st1)
      | Except.ok (st2, value) =>
        Except.ok (SandboxResource.reply command
          [("value", JValue.num value), ("success", JValue.bool true)], st2)

/-- The per-sandbox key counter as an integer (0 when absent, as redis's
`INCR` treats it). -/
def counterVal (st : RedisState) (sandbox_id : String) : Int :=
  match alookup st (count_key sandbox_id) with
  | some (RVal.int n) => n
  | some (RVal.str s) => (parseIntStr s).getD 0
  | none => 0

/-- The counter cell is in the state `INCR` keeps it in: absent or an integer. -/
def goodCounter (st : RedisState) (sandbox_id : String) : Prop :=
  alookup st (count_key sandbox_id) = none ∨
    ∃ n : Int, alookup st (count_key sandbox_id) = some (RVal.int n)

/-- A `kv.set` command for key `k` and value `v`, as it reaches the handler. -/
def setCmd (k : String) (v : JValue) : Fields :=
  [("cmd", JValue.str "set"), ("cmd_id", JValue.str "scenario-id"),
   ("reply", JValue.bool false), ("key", JValue.str k), ("value", v)]

/-- Run a sequence of `kv.set` commands with distinct keys (the quota
scenario); collects the replies. -/
def runSets (dumps : JValue → String) (keys_per_user : Int) (sandbox_id : String)
    (v : JValue) : RedisState → List String → List Fields × RedisState
  | st, [] => ([], st)
  | st, k :: ks =>
    match RedisResource.handle_set dumps keys_per_user st sandbox_id (setCmd k v) with
    | Except.error _ => ([], st)
    | Except.ok (rep, st1) =>
      match runSets dumps keys_per_user sandbox_id v st1 ks with
      | (reps, st2) => (rep :: reps, st2)

-- Fixtures used by witness theorems: a json parser stub that always fails,
-- a trivial parser for protocol-level witnesses, and a one-handler resource
-- whose handler raises.

/-- A json parser that rejects every line (fixture for parse-failure runs). -/
def jsonParseFail : String → Except String Fields :=
  fun _ => Except.error "ValueError: No JSON object could be decoded"

/-- A protocol-level line parser fixture (treats each line as an empty dict). -/
def parseNothing : List Char → Fields := fun _ => []

/-- A resource whose only handler, `handle_set`, raises (fixture). -/
def raisingResource : SandboxResource :=
  { name := "kv"
  , handlers := fun op =>
      if op = "set" then
        some (fun _ =>
          { result := Except.error "boom", logs := [], killed := false })
      else none }

/-- A mid-run protocol state fixture with non-empty carries on both streams. -/
def protoW : SandboxProtocol :=
  { sandbox_id := "sandbox", recv_limit := 100, recv_bytes := 10,
    chunk := ['a'], error_chunk := ['b'], pending_requests := [], logs := [],
    killed := false }

/-- A chunk fixture containing one complete line and a trailing fragment. -/
def dataW : List Char := ['c', 'd', '\n', 'e']

-- Association list lemmas (the dict model).

/-- Looking up the key just assigned yields the assigned value. -/
@[simp] theorem alookup_fset_self {β : Type} (fs : List (String × β)) (key : String)
    (v : β) : alookup (fset fs key v) key = some v := by
  induction fs with
  | nil => simp [fset, alookup]
  | cons p fs ih =>
    by_cases h : p.1 = key
    · simp [fset, alookup, h]
    · simp [fset, alookup, h, ih]

/-- Assignment leaves other keys untouched. -/
theorem alookup_fset_ne {β : Type} (fs : List (String × β)) (key key' : String)
    (v : β) (h : key' ≠ key) : alookup (fset fs key v) key' = alookup fs key' := by
  induction fs with
  | nil => simp [fset, alookup, Ne.symm h]
  | cons p fs ih =>
    by_cases hk : p.1 = key
    · subst hk
      simp [fset, alookup, h, Ne.symm h]
    · by_cases hk' : p.1 = key'
      · simp [fset, alookup, hk, hk', h]
      · simp [fset, alookup, hk, hk', ih]

/-- A deleted key is gone. -/
@[simp] theorem alookup_aerase_self {β : Type} (fs : List (String × β))
    (key : String) : alookup (aerase fs key) key = none := by
  induction fs with
  | nil => simp [aerase, alookup]
  | cons p fs ih =>
    by_cases h : p.1 = key
    · simp [aerase, alookup, h, ih]
    · simp [aerase, alookup, h, ih]

/-- Deletion leaves other keys untouched. -/
theorem alookup_aerase_ne {β : Type} (fs : List (String × β)) (key key' : String)
    (h : key' ≠ key) : alookup (aerase fs key) key' = alookup fs key' := by
  induction fs with
  | nil => simp [aerase, alookup]
  | cons p fs ih =>
    by_cases hk : p.1 = key
    · subst hk
      simp [aerase, alookup, Ne.symm h, ih]
    · by_cases hk' : p.1 = key'
      · simp [aerase, alookup, hk, hk', h]
      · simp [aerase, alookup, hk, hk', ih]

-- String facts about the key naming scheme.

/-- Appending on the left of `String.append` is cancellable. -/
theorem string_append_cancel (p a b : String) (h : p ++ a = p ++ b) : a = b := by
  have hd : (p ++ a).data = (p ++ b).data := by rw [h]
  rw [String.data_append, String.data_append] at hd
  have hab := List.append_cancel_left hd
  cases a
  cases b
  exact congrArg String.mk hab

/-- For one sandbox, distinct user keys live under distinct store keys. -/
theorem sandboxed_key_inj (sandbox_id k1 k2 : String)
    (h : sandboxed_key sandbox_id k1 = sandboxed_key sandbox_id k2) : k1 = k2 :=
  string_append_cancel _ _ _ h

/-- The counter key is never a sandboxed data key. -/
theorem count_key_ne_sandboxed (sandbox_id k : String) :
    count_key sandbox_id ≠ sandboxed_key sandbox_id k := by
  intro h
  have h1 : (count_key sandbox_id).data.head? = (sandboxed_key sandbox_id k).data.head? := by
    rw [h]
  have h2 : (count_key sandbox_id).data.head? = some 'c' := rfl
  have h3 : (sandboxed_key sandbox_id k).data.head? = some 's' := rfl
  rw [h2, h3] at h1
  exact absurd h1 (by decide)

-- Facts about the newline splitter.

/-- `splitNl` never returns the empty list. -/
theorem splitNl_ne_nil (l : List Char) : splitNl l ≠ [] := by
  induction l with
  | nil => simp [splitNl]
  | cons c cs ih =>
    by_cases h : c = '\n'
    · simp [splitNl, h]
    · cases hs : splitNl cs with
      | nil => exact absurd hs ih
      | cons p ps => simp [splitNl, h, hs]

/-- Splitting after gluing a newline-free carry in front is the same as
splitting and then gluing the carry onto the first part. -/
theorem splitNl_append_no_nl (a b : List Char) (h : '\n' ∉ a) :
    splitNl (a ++ b) = prependHead a (splitNl b) := by
  induction a with
  | nil =>
    cases hs : splitNl b with
    | nil => exact absurd hs (splitNl_ne_nil b)
    | cons p ps => simp [prependHead, hs]
  | cons c cs ih =>
    have hc : c ≠ '\n' := fun hc => h (by simp [hc])
    have hcs : '\n' ∉ cs := fun hm => h (by simp [hm])
    have ih' := ih hcs
    cases hs : splitNl b with
    | nil => exact absurd hs (splitNl_ne_nil b)
    | cons p ps =>
      rw [hs] at ih'
      cases hcs' : splitNl (cs ++ b) with
      | nil => exact absurd hcs' (splitNl_ne_nil (cs ++ b))
      | cons q qs =>
        rw [hcs'] at ih'
        simp [prependHead] at ih'
        simp [splitNl, hc, hcs', prependHead, ih'.1, ih'.2]

-- Behaviour of the byte accounting and the demultiplexer.

/-- `check_recv` when the chunk fits in the budget. -/
theorem check_recv_ok (st : SandboxProtocol) (n : Nat)
    (h : st.recv_bytes + n ≤ st.recv_limit) :
    st.check_recv n = (true, { st with recv_bytes := st.recv_bytes + n }) := by
  simp [SandboxProtocol.check_recv, h]

/-- `check_recv` when the chunk overflows the budget: the counter is still
charged, the child is killed and the budget message is logged at ERROR. -/
theorem check_recv_over (st : SandboxProtocol) (n : Nat)
    (h : st.recv_limit < st.recv_bytes + n) :
    st.check_recv n = (false,
      { st with
        recv_bytes := st.recv_bytes + n,
        killed := true,
        logs := st.logs ++ [(budgetMsg st.sandbox_id, logging_ERROR)] }) := by
  simp [SandboxProtocol.check_recv, Nat.not_le.mpr h]

/-- `outReceived` on an in-budget chunk. -/
theorem outReceived_ok (parse : List Char → Fields) (st : SandboxProtocol)
    (data : List Char) (h : st.recv_bytes + data.length ≤ st.recv_limit) :
    st.outReceived parse data =
      { st with
        recv_bytes := st.recv_bytes + data.length,
        pending_requests := st.pending_requests ++
          ((prependHead st.chunk (splitNl data)).dropLast).map parse,
        chunk := (prependHead st.chunk (splitNl data)).getLastD [] } := by
  simp [SandboxProtocol.outReceived, SandboxProtocol.process_data, check_recv_ok st _ h]

/-- `outReceived` on an overflowing chunk: nothing is dispatched, the carry is
cleared, the child is killed, the budget message is logged. -/
theorem outReceived_over (parse : List Char → Fields) (st : SandboxProtocol)
    (data : List Char) (h : st.recv_limit < st.recv_bytes + data.length) :
    st.outReceived parse data =
      { st with
        recv_bytes := st.recv_bytes + data.length,
        killed := true,
        logs := st.logs ++ [(budgetMsg st.sandbox_id, logging_ERROR)],
        chunk := [] } := by
  simp [SandboxProtocol.outReceived, SandboxProtocol.process_data, check_recv_over st _ h]

/-- `errReceived` on an in-budget chunk. -/
theorem errReceived_ok (st : SandboxProtocol) (data : List Char)
    (h : st.recv_bytes + data.length ≤ st.recv_limit) :
    st.errReceived data =
      { st with
        recv_bytes := st.recv_bytes + data.length,
        logs := st.logs ++ ((prependHead st.error_chunk (splitNl data)).dropLast).map
          (fun l => (String.mk l, logging_ERROR)),
        error_chunk := (prependHead st.error_chunk (splitNl data)).getLastD [] } := by
  simp [SandboxProtocol.errReceived, SandboxProtocol.process_data, check_recv_ok st _ h]

/-- `errReceived` on an overflowing chunk. -/
theorem errReceived_over (st : SandboxProtocol) (data : List Char)
    (h : st.recv_limit < st.recv_bytes + data.length) :
    st.errReceived data =
      { st with
        recv_bytes := st.recv_bytes + data.length,
        killed := true,
        logs := st.logs ++ [(budgetMsg st.sandbox_id, logging_ERROR)],
        error_chunk := [] } := by
  simp [SandboxProtocol.errReceived, SandboxProtocol.process_data, check_recv_over st _ h]

/-- One step preserves "not killed implies within budget". -/
theorem step_recv_inv (parse : List Char → Fields) (st : SandboxProtocol)
    (ev : StreamEvent) (h : st.killed = false → st.recv_bytes ≤ st.recv_limit) :
    (stepProtocol parse st ev).killed = false →
      (stepProtocol parse st ev).recv_bytes ≤ (stepProtocol parse st ev).recv_limit := by
  cases ev with
  | out data =>
    rcases le_or_lt (st.recv_bytes + data.length) st.recv_limit with hle | hlt
    · rw [stepProtocol, outReceived_ok parse st data hle]
      intro _
      simpa using hle
    · rw [stepProtocol, outReceived_over parse st data hlt]
      intro hk
      simp at hk
  | err data =>
    rcases le_or_lt (st.recv_bytes + data.length) st.recv_limit with hle | hlt
    · rw [stepProtocol, errReceived_ok st data hle]
      intro _
      simpa using hle
    · rw [stepProtocol, errReceived_over st data hlt]
      intro hk
      simp at hk
  | outClosed =>
    rw [stepProtocol, SandboxProtocol.outConnectionLost]
    split
    · exact h
    · intro hk
      simp at hk
      exact h hk
  | errClosed =>
    rw [stepProtocol, SandboxProtocol.errConnectionLost]
    split
    · exact h
    · intro hk
      simp at hk
      exact h hk

/-- The invariant holds after any run from a state satisfying it. -/
theorem run_recv_inv (parse : List Char → Fields) (st : SandboxProtocol)
    (evs : List StreamEvent) (h : st.killed = false → st.recv_bytes ≤ st.recv_limit) :
    (runProtocol parse st evs).killed = false →
      (runProtocol parse st evs).recv_bytes ≤ (runProtocol parse st evs).recv_limit := by
  induction evs generalizing st with
  | nil => exact h
  | cons ev evs ih =>
    rw [runProtocol, List.foldl_cons]
    exact ih (stepProtocol parse st ev) (step_recv_inv parse st ev h)

/-- C1, counterexample to the claim as stated: `check_recv` charges the
overflowing chunk to `recv_bytes` before comparing and never rolls it back, so
after the first overflowing chunk the counter exceeds `recv_limit` (here 32
bytes against a 16-byte limit, a run on which the child is indeed killed). -/
theorem C1_counterexample :
    (runProtocol parseNothing (initProtocol "sandbox" 16)
        [StreamEvent.out (List.replicate 32 'a')]).recv_limit <
      (runProtocol parseNothing (initProtocol "sandbox" 16)
        [StreamEvent.out (List.replicate 32 'a')]).recv_bytes ∧
    (runProtocol parseNothing (initProtocol "sandbox" 16)
        [StreamEvent.out (List.replicate 32 'a')]).killed = true := by
  constructor
  · decide
  · decide

/-- C1 (amended): while the sandbox has not been killed for overflow,
`recv_bytes ≤ recv_limit` holds after every chunk of every run; the first
chunk that overflows the limit immediately triggers a kill and an ERROR log
(but leaves `recv_bytes` above the limit, since the charge is not rolled
back). -/
theorem C1_recv_budget (parse : List Char → Fields) (sandbox_id : String)
    (recv_limit : Nat) (evs : List StreamEvent) :
    ((runProtocol parse (initProtocol sandbox_id recv_limit) evs).killed = false →
      (runProtocol parse (initProtocol sandbox_id recv_limit) evs).recv_bytes ≤
        (runProtocol parse (initProtocol sandbox_id recv_limit) evs).recv_limit) ∧
    (∀ (st : SandboxProtocol) (data : List Char),
      st.killed = false →
      st.recv_limit < st.recv_bytes + data.length →
      ((st.outReceived parse data).killed = true ∧
       (st.outReceived parse data).logs =
         st.logs ++ [(budgetMsg st.sandbox_id, logging_ERROR)]) ∧
      ((st.errReceived data).killed = true ∧
       (st.errReceived data).logs =
         st.logs ++ [(budgetMsg st.sandbox_id, logging_ERROR)])) := by
  constructor
  · exact run_recv_inv parse (initProtocol sandbox_id recv_limit) evs
      (fun _ => Nat.zero_le _)
  · intro st data _ h
    rw [outReceived_over parse st data h, errReceived_over st data h]
    simp

/-- Witness for `C1_recv_budget` on a concrete run: one 8-byte chunk against a
16-byte limit stays within budget; a 32-byte chunk against a fresh 16-byte
limit is the first overflow and kills. -/
theorem C1_recv_budget_witness :
    ((runProtocol parseNothing (initProtocol "sandbox" 16)
        [StreamEvent.out (List.replicate 8 'a')]).recv_bytes ≤
      (runProtocol parseNothing (initProtocol "sandbox" 16)
        [StreamEvent.out (List.replicate 8 'a')]).recv_limit) ∧
    ((initProtocol "sandbox" 16).outReceived parseNothing
        (List.replicate 32 'a')).killed = true :=
  ⟨(C1_recv_budget parseNothing "sandbox" 16
      [StreamEvent.out (List.replicate 8 'a')]).1 (by decide),
   (((C1_recv_budget parseNothing "sandbox" 16 []).2 (initProtocol "sandbox" 16)
      (List.replicate 32 'a') (by decide) (by decide)).1).1⟩

/-- C7: a chunk that would push the cumulative byte count past `recv_limit` is
discarded whole: no command is dispatched from any of its contents (the
pending-request list is unchanged), the child is killed, and the
output-budget ERROR is logged; likewise on stderr no line is logged from the
chunk's contents. -/
theorem C7_overflow_chunk_discarded (parse : List Char → Fields)
    (st : SandboxProtocol) (data : List Char)
    (h : st.recv_limit < st.recv_bytes + data.length) :
    ((st.outReceived parse data).pending_requests = st.pending_requests ∧
     (st.outReceived parse data).killed = true ∧
     (st.outReceived parse data).logs =
       st.logs ++ [(budgetMsg st.sandbox_id, logging_ERROR)]) ∧
    ((st.errReceived data).logs =
       st.logs ++ [(budgetMsg st.sandbox_id, logging_ERROR)] ∧
     (st.errReceived data).killed = true) := by
  rw [outReceived_over parse st data h, errReceived_over st data h]
  simp

/-- Witness for `C7_overflow_chunk_discarded`: `recv_limit = 16` and a 32-byte
line, as in the spec's scenario S4 — zero dispatches occur. -/
theorem C7_overflow_chunk_discarded_witness :
    (initProtocol "sandbox" 16).recv_limit <
      (initProtocol "sandbox" 16).recv_bytes + (List.replicate 32 'x').length ∧
    (((initProtocol "sandbox" 16).outReceived parseNothing
        (List.replicate 32 'x')).pending_requests =
      (initProtocol "sandbox" 16).pending_requests ∧
     ((initProtocol "sandbox" 16).outReceived parseNothing
        (List.replicate 32 'x')).killed = true ∧
     ((initProtocol "sandbox" 16).outReceived parseNothing
        (List.replicate 32 'x')).logs =
       (initProtocol "sandbox" 16).logs ++
         [(budgetMsg (initProtocol "sandbox" 16).sandbox_id, logging_ERROR)]) :=
  ⟨by decide,
   (C7_overflow_chunk_discarded parseNothing (initProtocol "sandbox" 16)
     (List.replicate 32 'x') (by decide)).1⟩

/-- C8: on an in-budget chunk the demultiplexer behaves as: prepend the
stream's carry, split at newline, emit every complete line (stdout lines are
parsed and dispatched, stderr lines are logged at ERROR), and keep the
trailing fragment as the new carry; on stream close a non-empty carry is
emitted as one final line.  (The carries never contain a newline, being
trailing fragments of a split; the hypotheses record that.) -/
theorem C8_demux (parse : List Char → Fields) (st : SandboxProtocol)
    (data : List Char)
    (hin : st.recv_bytes + data.length ≤ st.recv_limit)
    (hout : '\n' ∉ st.chunk) (herr : '\n' ∉ st.error_chunk) :
    ((st.outReceived parse data).pending_requests =
       st.pending_requests ++ ((splitNl (st.chunk ++ data)).dropLast).map parse ∧
     (st.outReceived parse data).chunk = (splitNl (st.chunk ++ data)).getLastD []) ∧
    ((st.errReceived data).logs =
       st.logs ++ ((splitNl (st.error_chunk ++ data)).dropLast).map
         (fun l => (String.mk l, logging_ERROR)) ∧
     (st.errReceived data).error_chunk =
       (splitNl (st.error_chunk ++ data)).getLastD []) ∧
    (st.chunk ≠ [] →
      (st.outConnectionLost parse).pending_requests =
        st.pending_requests ++ [parse st.chunk] ∧
      (st.outConnectionLost parse).chunk = []) ∧
    (st.error_chunk ≠ [] →
      (st.errConnectionLost).logs =
        st.logs ++ [(String.mk st.error_chunk, logging_ERROR)] ∧
      (st.errConnectionLost).error_chunk = []) := by
  rw [outReceived_ok parse st data hin, errReceived_ok st data hin,
      splitNl_append_no_nl st.chunk data hout,
      splitNl_append_no_nl st.error_chunk data herr]
  refine ⟨⟨by simp, by simp⟩, ⟨by simp, by simp⟩, ?_, ?_⟩
  · intro hne
    rw [SandboxProtocol.outConnectionLost, if_neg hne]
    exact ⟨rfl, rfl⟩
  · intro hne
    rw [SandboxProtocol.errConnectionLost, if_neg hne]
    exact ⟨rfl, rfl⟩

/-- Witness for `C8_demux`: with carry `"a"` and chunk `"cd\ne"`, the emitted
stdout line is `"acd"` and the new carry is `"e"`. -/
theorem C8_demux_witness :
    protoW.recv_bytes + dataW.length ≤ protoW.recv_limit ∧
    (protoW.outReceived parseNothing dataW).pending_requests =
      protoW.pending_requests ++
        ((splitNl (protoW.chunk ++ dataW)).dropLast).map parseNothing ∧
    (protoW.outReceived parseNothing dataW).chunk =
      (splitNl (protoW.chunk ++ dataW)).getLastD [] :=
  ⟨by decide,
   (C8_demux parseNothing protoW dataW (by decide) (by decide) (by decide)).1.1,
   (C8_demux parseNothing protoW dataW (by decide) (by decide) (by decide)).1.2⟩

-- MultiDeferred: invariants before and after the one-shot fire.

/-- Before the fire: no result, every waiter pending and queued. -/
def mdPre {α : Type} (w : MDWorld α) : Prop :=
  w.result = none ∧ ∀ p ∈ w.waiters, p.2 = none ∧ p.1 ∈ w.queued

/-- After a fire with `r`: result recorded, every waiter fired with `r`. -/
def mdPost {α : Type} (r : α) (w : MDWorld α) : Prop :=
  w.result = some r ∧ ∀ p ∈ w.waiters, p.2 = some r

theorem mdPre_init {α : Type} : mdPre (mdInit : MDWorld α) := by
  simp [mdPre, mdInit]

theorem mdPre_get {α : Type} (w : MDWorld α) (h : mdPre w) : mdPre (w.get).2 := by
  obtain ⟨hres, hw⟩ := h
  have hf : w.fired = false := by simp [MDWorld.fired, hres]
  constructor
  · simp [MDWorld.get, hf, hres]
  · intro p hp
    simp [MDWorld.get, hf] at hp
    rcases hp with hp | hp
    · rcases hw p hp with ⟨h1, h2⟩
      exact ⟨h1, by simp [MDWorld.get, hf, h2]⟩
    · subst hp
      simp [MDWorld.get, hf]

theorem mdPre_run {α : Type} (ops : List (MDOp α)) (h : hasCallback ops = false)
    (w : MDWorld α) (hw : mdPre w) : mdPre (mdRun w ops) := by
  induction ops generalizing w with
  | nil => exact hw
  | cons op ops ih =>
    cases op with
    | get =>
      rw [mdRun, List.foldl_cons]
      have h' : hasCallback ops = false := by
        simp [hasCallback] at h ⊢
        exact h
      exact ih h' _ (mdPre_get w hw)
    | callback r => simp [hasCallback] at h

theorem mdPost_callback {α : Type} (r : α) (w : MDWorld α) (h : mdPre w) :
    mdPost r (w.callback r) := by
  obtain ⟨_, hw⟩ := h
  constructor
  · rfl
  · intro p hp
    simp only [MDWorld.callback] at hp
    rcases List.mem_map.mp hp with ⟨q, hq, hpq⟩
    rcases hw q hq with ⟨_, hmem⟩
    rw [if_pos hmem] at hpq
    rw [← hpq]

theorem mdPost_get {α : Type} (r : α) (w : MDWorld α) (h : mdPost r w) :
    mdPost r (w.get).2 := by
  obtain ⟨hres, hw⟩ := h
  have hf : w.fired = true := by simp [MDWorld.fired, hres]
  constructor
  · simp [MDWorld.get, hf, hres]
  · intro p hp
    simp [MDWorld.get, hf] at hp
    rcases hp with hp | hp
    · exact hw p hp
    · subst hp
      simpa using hres

theorem mdPost_run {α : Type} (r : α) (ops : List (MDOp α))
    (h : hasCallback ops = false) (w : MDWorld α) (hw : mdPost r w) :
    mdPost r (mdRun w ops) := by
  induction ops generalizing w with
  | nil => exact hw
  | cons op ops ih =>
    cases op with
    | get =>
      rw [mdRun, List.foldl_cons]
      have h' : hasCallback ops = false := by
        simp [hasCallback] at h ⊢
        exact h
      exact ih h' _ (mdPost_get r w hw)
    | callback r' => simp [hasCallback] at h

/-- C9: for a `MultiDeferred` used one-shot (any gets, one `callback r`, any
gets), every waiter obtained before the fire ends up called back with `r`,
`fired()` is `False` before the fire and `True` after, and a waiter obtained
after the fire (a further `get`) is called back with `r` immediately. -/
theorem C9_multi_deferred {α : Type} (r : α) (ops1 ops2 : List (MDOp α))
    (h1 : hasCallback ops1 = false) (h2 : hasCallback ops2 = false) :
    (∀ p ∈ (mdRun mdInit (ops1 ++ MDOp.callback r :: ops2)).waiters, p.2 = some r) ∧
    (mdRun mdInit (ops1 ++ MDOp.callback r :: ops2)).fired = true ∧
    (mdRun mdInit ops1).fired = false ∧
    (∀ p ∈ ((mdRun mdInit (ops1 ++ MDOp.callback r :: ops2)).get).2.waiters,
       p.2 = some r) := by
  have hpre : mdPre (mdRun (mdInit : MDWorld α) ops1) :=
    mdPre_run ops1 h1 mdInit mdPre_init
  have hsplit : mdRun (mdInit : MDWorld α) (ops1 ++ MDOp.callback r :: ops2) =
      mdRun ((mdRun mdInit ops1).callback r) ops2 := by
    rw [mdRun, List.foldl_append, List.foldl_cons]
    rfl
  have hpost : mdPost r (mdRun (mdInit : MDWorld α) (ops1 ++ MDOp.callback r :: ops2)) := by
    rw [hsplit]
    exact mdPost_run r ops2 h2 _ (mdPost_callback r _ hpre)
  refine ⟨hpost.2, ?_, ?_, ?_⟩
  · simp [MDWorld.fired, hpost.1]
  · simp [MDWorld.fired, hpre.1]
  · exact (mdPost_get r _ hpost).2

/-- Witness for `C9_multi_deferred`: two waiters before the fire, one after. -/
theorem C9_multi_deferred_witness :
    hasCallback ([MDOp.get, MDOp.get] : List (MDOp Nat)) = false ∧
    (∀ p ∈ (mdRun mdInit ([MDOp.get, MDOp.get] ++ MDOp.callback 7 :: [MDOp.get])).waiters,
       p.2 = some 7) ∧
    (mdRun mdInit ([MDOp.get, MDOp.get] ++ MDOp.callback 7 :: [MDOp.get])).fired = true :=
  ⟨by decide,
   (C9_multi_deferred 7 [MDOp.get, MDOp.get] [MDOp.get] (by decide) (by decide)).1,
   (C9_multi_deferred 7 [MDOp.get, MDOp.get] [MDOp.get] (by decide) (by decide)).2.1⟩

-- The drain set up by processEnded: `_done` fires exactly when the
-- DeferredList over the pending requests completes.

/-- The drain invariant: `_done` has been fired (once, with `r`) exactly when
every pending request deferred has settled. -/
def drainInv (r : DoneValue) (st : DrainState) : Prop :=
  st.doneFires = if allSettled st then [r] else []

theorem mkDrain_inv (r : DoneValue) (pre : List Bool) : drainInv r (mkDrain r pre) := by
  rw [mkDrain, drainInv, allSettled]
  split
  · simp_all
  · simp_all

/-- An unsettled slot means not all are settled. -/
theorem not_allSettled_of_getD_false (st : DrainState) (i : Nat)
    (h : st.settled.getD i true = false) : allSettled st = false := by
  cases hA : allSettled st
  · rfl
  · exfalso
    rw [allSettled] at hA
    rw [List.getD_eq_getElem?_getD] at h
    cases hii : st.settled[i]? with
    | none =>
      rw [hii] at h
      simp at h
    | some b =>
      rw [hii] at h
      simp at h
      have hmem : b ∈ st.settled := by
        rcases List.getElem?_eq_some.mp hii with ⟨hlt, hb⟩
        exact hb ▸ List.getElem_mem hlt
      have hb := List.all_eq_true.mp hA _ hmem
      simp [h] at hb

theorem settleStep_inv (r : DoneValue) (st : DrainState) (i : Nat)
    (h : drainInv r st) : drainInv r (settleStep r st i) := by
  rw [settleStep]
  by_cases hg : st.settled.getD i true = true
  · rw [if_pos hg]
    exact h
  · rw [if_neg hg]
    have hg' : st.settled.getD i true = false := Bool.eq_false_iff.mpr hg
    have hnall : allSettled st = false := not_allSettled_of_getD_false st i hg'
    have hfires : st.doneFires = [] := by
      rw [drainInv, hnall] at h
      simpa using h
    show drainInv r
      (if ((st.settled.set i true).all fun b => b) = true then
        { settled := st.settled.set i true, doneFires := st.doneFires ++ [r] }
      else { settled := st.settled.set i true, doneFires := st.doneFires })
    by_cases hs : ((st.settled.set i true).all fun b => b) = true
    · rw [if_pos hs]
      rw [drainInv, allSettled]
      simp only [hs]
      simp [hfires]
    · rw [if_neg hs]
      rw [drainInv, allSettled]
      simp only [Bool.eq_false_iff.mpr hs]
      simpa using hfires

theorem runDrain_inv (r : DoneValue) (st : DrainState) (evs : List Nat)
    (h : drainInv r st) : drainInv r (runDrain r st evs) := by
  induction evs generalizing st with
  | nil => exact h
  | cons i evs ih =>
    rw [runDrain, List.foldl_cons]
    exact ih _ (settleStep_inv r st i h)

/-- C2: for every run, once every dispatch task pending at `processEnded` has
settled, `done` has fired exactly once, with the process exit status for a
`ProcessDone` termination and with the failure reason otherwise; at every
intermediate point of the run `done` has fired only if all pending tasks have
settled, and it never fires more than once.  `processEnded` also cancels the
armed timeout task. -/
theorem C2_done_fires (timeoutActive startedAlreadyFired : Bool)
    (reason : TermReason) (pre : List Bool) (evs : List Nat)
    (out : ProcessEndedOut)
    (hout : out = processEnded timeoutActive startedAlreadyFired reason pre)
    (hall : allSettled (runDrain out.result out.drain evs) = true) :
    (runDrain out.result out.drain evs).doneFires = [exitResult reason] ∧
    (∀ p q : List Nat, evs = p ++ q →
      (runDrain out.result out.drain p).doneFires ≠ [] →
      allSettled (runDrain out.result out.drain p) = true) ∧
    (∀ p q : List Nat, evs = p ++ q →
      ((runDrain out.result out.drain p).doneFires).length ≤ 1) ∧
    out.timeoutCancelled = timeoutActive ∧
    out.result = exitResult reason := by
  subst hout
  have hres : (processEnded timeoutActive startedAlreadyFired reason pre).result =
      exitResult reason := rfl
  have hinv0 : drainInv (exitResult reason)
      (processEnded timeoutActive startedAlreadyFired reason pre).drain :=
    mkDrain_inv _ pre
  refine ⟨?_, ?_, ?_, rfl, rfl⟩
  · have hinv := runDrain_inv (exitResult reason) _ evs hinv0
    rw [drainInv] at hinv
    rw [hres] at hall ⊢
    rw [hall] at hinv
    simpa using hinv
  · intro p q _ hne
    have hinv := runDrain_inv (exitResult reason) _ p hinv0
    rw [drainInv] at hinv
    rw [hres] at hne ⊢
    cases hA : allSettled (runDrain (exitResult reason)
        (processEnded timeoutActive startedAlreadyFired reason pre).drain p)
    · rw [hA] at hinv
      simp at hinv
      exact absurd hinv hne
    · rfl
  · intro p q _
    have hinv := runDrain_inv (exitResult reason) _ p hinv0
    rw [drainInv] at hinv
    rw [hres]
    rw [hinv]
    split
    · simp
    · simp

/-- Witness for `C2_done_fires`: two pending requests settling in order after
a normal exit with status 0. -/
theorem C2_done_fires_witness :
    allSettled (runDrain (processEnded true true (TermReason.processDone 0)
        [false, false]).result
      (processEnded true true (TermReason.processDone 0) [false, false]).drain
      [0, 1]) = true ∧
    (runDrain (processEnded true true (TermReason.processDone 0)
        [false, false]).result
      (processEnded true true (TermReason.processDone 0) [false, false]).drain
      [0, 1]).doneFires = [exitResult (TermReason.processDone 0)] :=
  ⟨by decide,
   (C2_done_fires true true (TermReason.processDone 0) [false, false] [0, 1]
     (processEnded true true (TermReason.processDone 0) [false, false]) rfl
     (by decide)).1⟩

-- The dispatch layer: handler exceptions and malformed lines.

/-- C3: an exception raised inside a resource handler does not propagate out of
`SandboxApi.dispatch_request`: the call returns normally, the error is logged
both to the system log and to the sandbox log (at ERROR), and a reply with
`reply = true`, `success = false` and the exception message as `reason` is
sent to the child carrying the original command's `cmd_id` unchanged. -/
theorem C3_handler_exception_reply (resources : List (String × SandboxResource))
    (genId sandbox_id : String) (command : Fields) (cmdStr rn op e : String)
    (cidJ : JValue) (R : SandboxResource) (h : Fields → HandlerOut)
    (L : List (String × Nat)) (kflag : Bool)
    (hcmd : alookup command "cmd" = some (JValue.str cmdStr))
    (hpart : partitionDot cmdStr = (rn, ".", op))
    (hres : alookup resources rn = some R)
    (hhandler : R.handlers op = some h)
    (hrun : h (fset command "cmd" (JValue.str op)) =
      { result := Except.error e, logs := L, killed := kflag })
    (hcid : alookup command "cmd_id" = some cidJ) :
    ∃ rep : Fields,
      SandboxApi.dispatch_request resources genId sandbox_id command =
        Except.ok { sent := some rep, sysLogs := [e],
                    apiLogs := L ++ [(e, logging_ERROR)], killed := kflag } ∧
      alookup rep "reply" = some (JValue.bool true) ∧
      alookup rep "success" = some (JValue.bool false) ∧
      alookup rep "reason" = some (JValue.str e) ∧
      alookup rep "cmd_id" = some cidJ := by
  have hcid1 : alookup (fset command "cmd" (JValue.str op)) "cmd_id" = some cidJ := by
    rw [alookup_fset_ne command "cmd" "cmd_id" _ (by decide)]
    exact hcid
  have hcmd1 : alookup (fset command "cmd" (JValue.str op)) "cmd" =
      some (JValue.str op) := alookup_fset_self command "cmd" _
  have hstep : SandboxApi.dispatch_request resources genId sandbox_id command =
      Except.ok { sent := some (fset (mkSandboxCommand genId
                    [("reply", JValue.bool true), ("cmd_id", cidJ),
                     ("success", JValue.bool false), ("reason", JValue.str e)])
                    "cmd" (JValue.str (rn ++ "." ++ op)))
                , sysLogs := [e]
                , apiLogs := L ++ [(e, logging_ERROR)], killed := kflag } := by
    rw [SandboxApi.dispatch_request, hcmd]
    simp only [hpart]
    simp [SandboxResource.dispatch_request, hcmd1, strOfJ, hres, hhandler, hrun,
      hcid1]
  refine ⟨_, hstep, ?_, ?_, ?_, ?_⟩
  · simp [mkSandboxCommand, setdefault, alookup, fset]
  · simp [mkSandboxCommand, setdefault, alookup, fset]
  · simp [mkSandboxCommand, setdefault, alookup, fset]
  · simp [mkSandboxCommand, setdefault, alookup, fset]

/-- Witness for `C3_handler_exception_reply`: a registered `kv` resource whose
`handle_set` raises `"boom"` on a `kv.set` command. -/
theorem C3_handler_exception_reply_witness :
    alookup [("kv", raisingResource)] "kv" = some raisingResource ∧
    ∃ rep : Fields,
      SandboxApi.dispatch_request [("kv", raisingResource)] "gen" "sandbox"
          [("cmd", JValue.str "kv.set"), ("cmd_id", JValue.str "A"),
           ("reply", JValue.bool false)] =
        Except.ok { sent := some rep, sysLogs := ["boom"],
                    apiLogs := [] ++ [("boom", logging_ERROR)], killed := false } ∧
      alookup rep "reply" = some (JValue.bool true) ∧
      alookup rep "success" = some (JValue.bool false) ∧
      alookup rep "reason" = some (JValue.str "boom") ∧
      alookup rep "cmd_id" = some (JValue.str "A") :=
  ⟨rfl,
   C3_handler_exception_reply [("kv", raisingResource)] "gen" "sandbox"
     [("cmd", JValue.str "kv.set"), ("cmd_id", JValue.str "A"),
      ("reply", JValue.bool false)]
     "kv.set" "kv" "set" "boom" (JValue.str "A") raisingResource
     (fun _ => { result := Except.error "boom", logs := [], killed := false })
     [] false rfl rfl rfl rfl rfl rfl⟩

/-- C4: a stdout line the json parser rejects becomes a well-formed command
with `cmd = "unknown"`, the raw line under `line`, the parse error under
`exception` (plus a generated `cmd_id` and `reply = false`); dispatching it
reaches the fallback resource, which logs at ERROR level via the sandbox API
and kills the child, sending no reply. -/
theorem C4_parse_failure (jsonParse : String → Except String Fields)
    (genId genId2 sandbox_id line e : String)
    (resources : List (String × SandboxResource))
    (c : Fields) (hc : c = parse_command jsonParse genId line)
    (hfail : jsonParse line = Except.error e)
    (hempty : alookup resources "" = none) :
    alookup c "cmd" = some (JValue.str "unknown") ∧
    alookup c "line" = some (JValue.str line) ∧
    alookup c "exception" = some (JValue.str e) ∧
    alookup c "cmd_id" = some (JValue.str genId) ∧
    alookup c "reply" = some (JValue.bool false) ∧
    SandboxApi.dispatch_request resources genId2 sandbox_id c =
      Except.ok { sent := none, sysLogs := [],
                  apiLogs := [(unknownMsg "fallback" "unknown" sandbox_id,
                               logging_ERROR)],
                  killed := true } := by
  have hc' : c = mkSandboxCommand genId
      [("cmd", JValue.str "unknown"), ("line", JValue.str line),
       ("exception", JValue.str e)] := by
    rw [hc, parse_command, SandboxCommand.from_json, hfail]
  subst hc'
  have h1 : alookup (mkSandboxCommand genId
      [("cmd", JValue.str "unknown"), ("line", JValue.str line),
       ("exception", JValue.str e)]) "cmd" = some (JValue.str "unknown") := by
    simp [mkSandboxCommand, setdefault, alookup]
  refine ⟨h1, ?_, ?_, ?_, ?_, ?_⟩
  · simp [mkSandboxCommand, setdefault, alookup]
  · simp [mkSandboxCommand, setdefault, alookup]
  · simp [mkSandboxCommand, setdefault, alookup]
  · simp [mkSandboxCommand, setdefault, alookup]
  · have hpart : partitionDot "unknown" = ("unknown", "", "") := rfl
    rw [SandboxApi.dispatch_request, h1]
    simp only [hpart]
    have hcmd1 : alookup (fset (mkSandboxCommand genId
        [("cmd", JValue.str "unknown"), ("line", JValue.str line),
         ("exception", JValue.str e)]) "cmd" (JValue.str "unknown")) "cmd" =
        some (JValue.str "unknown") := alookup_fset_self _ "cmd" _
    simp [SandboxResource.dispatch_request, hcmd1, strOfJ, hempty,
      fallback_resource, SandboxResource.unknown_request]

/-- Witness for `C4_parse_failure`: the line `"not json"` with a parser that
rejects everything, against an empty resource registry. -/
theorem C4_parse_failure_witness :
    jsonParseFail "not json" =
      Except.error "ValueError: No JSON object could be decoded" ∧
    SandboxApi.dispatch_request [] "gen2" "sandbox"
        (parse_command jsonParseFail "gen1" "not json") =
      Except.ok { sent := none, sysLogs := [],
                  apiLogs := [(unknownMsg "fallback" "unknown" "sandbox",
                               logging_ERROR)],
                  killed := true } :=
  ⟨rfl,
   (C4_parse_failure jsonParseFail "gen1" "gen2" "sandbox" "not json"
     "ValueError: No JSON object could be decoded" []
     (parse_command jsonParseFail "gen1" "not json") rfl rfl rfl).2.2.2.2.2⟩

-- The key/value resource: counter behaviour and quota.

/-- The reply built by `SandboxResource.reply`, flattened (all three defaulted
fields are supplied, so `process_fields` changes nothing). -/
theorem reply_eq (command kwargs : Fields) :
    SandboxResource.reply command kwargs =
      ("cmd", (alookup command "cmd").getD (JValue.str "unknown")) ::
      ("reply", JValue.bool true) ::
      ("cmd_id", (alookup command "cmd_id").getD JValue.null) :: kwargs := by
  simp [SandboxResource.reply, mkSandboxCommand, setdefault, alookup]

/-- `check_keys` on an existing key: free, and the store is untouched. -/
theorem check_keys_exists (keys_per_user : Int) (st : RedisState)
    (sandbox_id key : String) (h : redisExists st key = true) :
    RedisResource.check_keys keys_per_user st sandbox_id key =
      Except.ok (true, st) := by
  simp [RedisResource.check_keys, h]

/-- `INCR` on a well-formed counter cell adds to `counterVal`. -/
theorem incr_counter (st : RedisState) (sandbox_id : String) (amount : Int)
    (h : goodCounter st sandbox_id) :
    redisIncr st (count_key sandbox_id) amount =
      Except.ok (fset st (count_key sandbox_id)
          (RVal.int (counterVal st sandbox_id + amount)),
        counterVal st sandbox_id + amount) := by
  rcases h with h | ⟨n, h⟩
  · simp [redisIncr, h, counterVal]
  · simp [redisIncr, h, counterVal]

@[simp] theorem counterVal_fset_ck (st : RedisState) (sandbox_id : String) (v : Int) :
    counterVal (fset st (count_key sandbox_id) (RVal.int v)) sandbox_id = v := by
  simp [counterVal]

theorem counterVal_fset_other (st : RedisState) (sandbox_id key : String) (v : RVal)
    (h : count_key sandbox_id ≠ key) :
    counterVal (fset st key v) sandbox_id = counterVal st sandbox_id := by
  rw [counterVal, alookup_fset_ne st key _ v h, counterVal]

theorem goodCounter_fset_ck (st : RedisState) (sandbox_id : String) (v : Int) :
    goodCounter (fset st (count_key sandbox_id) (RVal.int v)) sandbox_id :=
  Or.inr ⟨v, alookup_fset_self st _ _⟩

theorem goodCounter_fset_other (st : RedisState) (sandbox_id key : String) (v : RVal)
    (hne : count_key sandbox_id ≠ key) (h : goodCounter st sandbox_id) :
    goodCounter (fset st key v) sandbox_id := by
  rw [goodCounter, alookup_fset_ne st key _ v hne]
  exact h

/-- `check_keys` on a new key within quota: the counter is bumped. -/
theorem check_keys_new_ok (keys_per_user : Int) (st : RedisState)
    (sandbox_id key : String) (hne : redisExists st key = false)
    (hg : goodCounter st sandbox_id)
    (hq : counterVal st sandbox_id + 1 ≤ keys_per_user) :
    RedisResource.check_keys keys_per_user st sandbox_id key =
      Except.ok (true, fset st (count_key sandbox_id)
        (RVal.int (counterVal st sandbox_id + 1))) := by
  simp [RedisResource.check_keys, hne, incr_counter st sandbox_id 1 hg, not_lt.mpr hq]

/-- `check_keys` on a new key over quota: bump, reject, roll the bump back. -/
theorem check_keys_new_over (keys_per_user : Int) (st : RedisState)
    (sandbox_id key : String) (hne : redisExists st key = false)
    (hg : goodCounter st sandbox_id)
    (hq : keys_per_user < counterVal st sandbox_id + 1) :
    RedisResource.check_keys keys_per_user st sandbox_id key =
      Except.ok (false, fset (fset st (count_key sandbox_id)
          (RVal.int (counterVal st sandbox_id + 1))) (count_key sandbox_id)
        (RVal.int (counterVal st sandbox_id))) := by
  have h1 := incr_counter st sandbox_id 1 hg
  have h2 := incr_counter (fset st (count_key sandbox_id)
      (RVal.int (counterVal st sandbox_id + 1))) sandbox_id (-1)
    (goodCounter_fset_ck st sandbox_id _)
  rw [counterVal_fset_ck] at h2
  simp [RedisResource.check_keys, hne, h1, hq, h2]

/-- A successful `INCRBY` stores exactly the returned integer. -/
theorem redisIncr_ok_state (st : RedisState) (key : String) (amount : Int)
    (st2 : RedisState) (v : Int)
    (h : redisIncr st key amount = Except.ok (st2, v)) :
    st2 = fset st key (RVal.int v) := by
  rw [redisIncr] at h
  cases halo : alookup st key with
  | none =>
    rw [halo] at h
    simp at h
    rw [← h.1, ← h.2]
  | some rv =>
    cases rv with
    | int n =>
      rw [halo] at h
      simp at h
      rw [← h.1, ← h.2]
    | str s =>
      simp only [halo] at h
      cases hp : parseIntStr s with
      | none =>
        rw [hp] at h
        simp at h
      | some n =>
        rw [hp] at h
        simp at h
        rw [← h.1, ← h.2]

/-- `handle_set` on an existing key: success, value stored, store otherwise as
`check_keys` left it (untouched). -/
theorem handle_set_existing (dumps : JValue → String) (keys_per_user : Int)
    (st : RedisState) (sandbox_id : String) (command : Fields) (k : String)
    (hkey : alookup command "key" = some (JValue.str k))
    (hex : redisExists st (sandboxed_key sandbox_id k) = true) :
    RedisResource.handle_set dumps keys_per_user st sandbox_id command =
      Except.ok (SandboxResource.reply command [("success", JValue.bool true)],
        redisSet st (sandboxed_key sandbox_id k)
          (dumps ((alookup command "value").getD JValue.null))) := by
  simp [RedisResource.handle_set, fieldStr, hkey,
    check_keys_exists keys_per_user st sandbox_id _ hex]

/-- `handle_set` on a new key within quota: success, counter bumped, value
stored. -/
theorem handle_set_new_ok (dumps : JValue → String) (keys_per_user : Int)
    (st : RedisState) (sandbox_id : String) (command : Fields) (k : String)
    (hkey : alookup command "key" = some (JValue.str k))
    (hne : redisExists st (sandboxed_key sandbox_id k) = false)
    (hg : goodCounter st sandbox_id)
    (hq : counterVal st sandbox_id + 1 ≤ keys_per_user) :
    RedisResource.handle_set dumps keys_per_user st sandbox_id command =
      Except.ok (SandboxResource.reply command [("success", JValue.bool true)],
        redisSet (fset st (count_key sandbox_id)
            (RVal.int (counterVal st sandbox_id + 1)))
          (sandboxed_key sandbox_id k)
          (dumps ((alookup command "value").getD JValue.null))) := by
  simp [RedisResource.handle_set, fieldStr, hkey,
    check_keys_new_ok keys_per_user st sandbox_id _ hne hg hq]

/-- `handle_set` on a new key over quota: `Too many keys`, counter bumped and
rolled back, no value stored. -/
theorem handle_set_new_over (dumps : JValue → String) (keys_per_user : Int)
    (st : RedisState) (sandbox_id : String) (command : Fields) (k : String)
    (hkey : alookup command "key" = some (JValue.str k))
    (hne : redisExists st (sandboxed_key sandbox_id k) = false)
    (hg : goodCounter st sandbox_id)
    (hq : keys_per_user < counterVal st sandbox_id + 1) :
    RedisResource.handle_set dumps keys_per_user st sandbox_id command =
      Except.ok (too_many_keys command,
        fset (fset st (count_key sandbox_id)
            (RVal.int (counterVal st sandbox_id + 1))) (count_key sandbox_id)
          (RVal.int (counterVal st sandbox_id))) := by
  simp [RedisResource.handle_set, fieldStr, hkey,
    check_keys_new_over keys_per_user st sandbox_id _ hne hg hq]

/-- A key that does not exist has no binding. -/
theorem alookup_eq_none_of_not_exists (st : RedisState) (key : String)
    (h : redisExists st key = false) : alookup st key = none := by
  rw [redisExists] at h
  cases halo : alookup st key with
  | none => rfl
  | some v =>
    rw [halo] at h
    simp at h

/-- `handle_incr` on a new key over quota: `Too many keys`, counter bumped and
rolled back, no value touched. -/
theorem handle_incr_new_over (keys_per_user : Int) (st : RedisState)
    (sandbox_id : String) (command : Fields) (k : String)
    (hkey : alookup command "key" = some (JValue.str k))
    (hne : redisExists st (sandboxed_key sandbox_id k) = false)
    (hg : goodCounter st sandbox_id)
    (hq : keys_per_user < counterVal st sandbox_id + 1) :
    RedisResource.handle_incr keys_per_user st sandbox_id command =
      Except.ok (too_many_keys command,
        fset (fset st (count_key sandbox_id)
            (RVal.int (counterVal st sandbox_id + 1))) (count_key sandbox_id)
          (RVal.int (counterVal st sandbox_id))) := by
  simp [RedisResource.handle_incr, fieldStr, hkey,
    check_keys_new_over keys_per_user st sandbox_id _ hne hg hq]

/-- Invariant of the quota scenario: the counter equals the number of keys
written so far, the counter cell is well formed, and exactly the written keys
exist. -/
def quotaInv (sandbox_id : String) (done : List String) (st : RedisState) : Prop :=
  counterVal st sandbox_id = (done.length : Int) ∧
  goodCounter st sandbox_id ∧
  ∀ k : String, redisExists st (sandboxed_key sandbox_id k) = true ↔ k ∈ done

theorem quotaInv_empty (sandbox_id : String) : quotaInv sandbox_id [] [] := by
  refine ⟨by simp [counterVal, alookup], Or.inl rfl, ?_⟩
  intro k
  simp [redisExists, alookup]

/-- Running `handle_set` over distinct fresh keys within quota: every reply is
a success, and the invariant advances. -/
theorem runSets_spec (dumps : JValue → String) (keys_per_user : Int)
    (sandbox_id : String) (v : JValue) :
    ∀ (ks : List String) (done : List String) (st : RedisState),
    quotaInv sandbox_id done st → ks.Nodup → (∀ k ∈ ks, k ∉ done) →
    (done.length : Int) + ks.length ≤ keys_per_user →
    (∀ r ∈ (runSets dumps keys_per_user sandbox_id v st ks).1,
      alookup r "success" = some (JValue.bool true)) ∧
    (runSets dumps keys_per_user sandbox_id v st ks).1.length = ks.length ∧
    quotaInv sandbox_id (done ++ ks)
      (runSets dumps keys_per_user sandbox_id v st ks).2 := by
  intro ks
  induction ks with
  | nil =>
    intro done st hinv _ _ _
    refine ⟨by simp [runSets], by simp [runSets], by simpa [runSets] using hinv⟩
  | cons k ks ih =>
    intro done st hinv hnd hfresh hquota
    obtain ⟨hcnt, hgood, hkeys⟩ := hinv
    have hkmem : k ∉ done := hfresh k (by simp)
    have hne : redisExists st (sandboxed_key sandbox_id k) = false := by
      cases hB : redisExists st (sandboxed_key sandbox_id k)
      · rfl
      · exact absurd ((hkeys k).mp hB) hkmem
    have hkey : alookup (setCmd k v) "key" = some (JValue.str k) := by
      simp [setCmd, alookup]
    have hq1 : counterVal st sandbox_id + 1 ≤ keys_per_user := by
      rw [hcnt]
      have hlen : (((k :: ks).length : Nat) : Int) = (ks.length : Int) + 1 := by
        simp
      rw [hlen] at hquota
      have hnn : (0 : Int) ≤ (ks.length : Int) := Int.ofNat_nonneg _
      omega
    have hset := handle_set_new_ok dumps keys_per_user st sandbox_id (setCmd k v) k
      hkey hne hgood hq1
    have hval : (alookup (setCmd k v) "value").getD JValue.null = v := by
      simp [setCmd, alookup]
    set st1 : RedisState := redisSet (fset st (count_key sandbox_id)
        (RVal.int (counterVal st sandbox_id + 1)))
      (sandboxed_key sandbox_id k) (dumps v) with hst1
    have hrun : runSets dumps keys_per_user sandbox_id v st (k :: ks) =
        (SandboxResource.reply (setCmd k v) [("success", JValue.bool true)] ::
          (runSets dumps keys_per_user sandbox_id v st1 ks).1,
         (runSets dumps keys_per_user sandbox_id v st1 ks).2) := by
      rw [runSets, hset, hval]
    have hinv1 : quotaInv sandbox_id (done ++ [k]) st1 := by
      refine ⟨?_, ?_, ?_⟩
      · rw [hst1, redisSet,
          counterVal_fset_other _ sandbox_id _ _ (count_key_ne_sandboxed sandbox_id k),
          counterVal_fset_ck, hcnt]
        simp
      · exact goodCounter_fset_other _ sandbox_id _ _
          (count_key_ne_sandboxed sandbox_id k)
          (goodCounter_fset_ck st sandbox_id _)
      · intro k'
        by_cases hk' : k' = k
        · subst hk'
          simp [hst1, redisSet, redisExists]
        · have hsk : sandboxed_key sandbox_id k' ≠ sandboxed_key sandbox_id k :=
            fun hskeq => hk' (sandboxed_key_inj sandbox_id k' k hskeq)
          rw [hst1, redisSet, redisExists, alookup_fset_ne _ _ _ _ hsk,
            alookup_fset_ne _ _ _ _
              (Ne.symm (count_key_ne_sandboxed sandbox_id k'))]
          rw [← redisExists]
          rw [hkeys k']
          simp [hk']
    have hfresh1 : ∀ k' ∈ ks, k' ∉ done ++ [k] := by
      intro k' hk'
      simp only [List.mem_append, List.mem_singleton]
      rintro (hd | he)
      · exact hfresh k' (by simp [hk']) hd
      · subst he
        exact (List.nodup_cons.mp hnd).1 hk'
    have hquota1 : ((done ++ [k]).length : Int) + ks.length ≤ keys_per_user := by
      simp only [List.length_append, List.length_singleton]
      push_cast
      simp at hquota
      omega
    have hrec := ih (done ++ [k]) st1 hinv1 (List.nodup_cons.mp hnd).2 hfresh1 hquota1
    refine ⟨?_, ?_, ?_⟩
    · intro r hr
      rw [hrun] at hr
      rcases List.mem_cons.mp hr with hr | hr
      · subst hr
        simp [reply_eq, alookup]
      · exact hrec.1 r hr
    · rw [hrun]
      simp [hrec.2.1]
    · rw [hrun]
      have := hrec.2.2
      simpa [List.append_assoc] using this

/-- C5: for the key/value resource, a write (`set` or `incr`) to an existing
key never changes the per-sandbox counter; a write (`set` or `incr`) to a new
key within quota increments the counter and succeeds; a write (`set` or
`incr`) to a new key that would exceed `keys_per_user` is rejected with
`success = false`, `reason = "Too many keys"` and leaves the counter
net-unchanged (the increment is rolled back); and from an empty store, after
`keys_per_user` distinct successful sets the next distinct set fails exactly
this way. -/
theorem C5_kv_write_quota (dumps : JValue → String) (keys_per_user : Int)
    (sid : String) :
    (∀ (st : RedisState) (command : Fields) (k : String) (out : Fields × RedisState),
      alookup command "key" = some (JValue.str k) →
      redisExists st (sandboxed_key sid k) = true →
      RedisResource.handle_set dumps keys_per_user st sid command = Except.ok out →
      counterVal out.2 sid = counterVal st sid) ∧
    (∀ (st : RedisState) (command : Fields) (k : String) (out : Fields × RedisState),
      alookup command "key" = some (JValue.str k) →
      redisExists st (sandboxed_key sid k) = true →
      RedisResource.handle_incr keys_per_user st sid command = Except.ok out →
      counterVal out.2 sid = counterVal st sid) ∧
    (∀ (st : RedisState) (command : Fields) (k : String) (out : Fields × RedisState),
      alookup command "key" = some (JValue.str k) →
      redisExists st (sandboxed_key sid k) = false →
      goodCounter st sid →
      counterVal st sid + 1 ≤ keys_per_user →
      RedisResource.handle_set dumps keys_per_user st sid command = Except.ok out →
      counterVal out.2 sid = counterVal st sid + 1 ∧
      alookup out.1 "success" = some (JValue.bool true)) ∧
    (∀ (st : RedisState) (command : Fields) (k : String) (out : Fields × RedisState),
      alookup command "key" = some (JValue.str k) →
      redisExists st (sandboxed_key sid k) = false →
      goodCounter st sid →
      counterVal st sid + 1 ≤ keys_per_user →
      (alookup command "amount" = none ∨
        ∃ a : Int, alookup command "amount" = some (JValue.num a)) →
      RedisResource.handle_incr keys_per_user st sid command = Except.ok out →
      counterVal out.2 sid = counterVal st sid + 1 ∧
      alookup out.1 "success" = some (JValue.bool true)) ∧
    (∀ (st : RedisState) (command : Fields) (k : String) (out : Fields × RedisState),
      alookup command "key" = some (JValue.str k) →
      redisExists st (sandboxed_key sid k) = false →
      goodCounter st sid →
      keys_per_user < counterVal st sid + 1 →
      RedisResource.handle_set dumps keys_per_user st sid command = Except.ok out →
      alookup out.1 "success" = some (JValue.bool false) ∧
      alookup out.1 "reason" = some (JValue.str "Too many keys") ∧
      counterVal out.2 sid = counterVal st sid) ∧
    (∀ (st : RedisState) (command : Fields) (k : String) (out : Fields × RedisState),
      alookup command "key" = some (JValue.str k) →
      redisExists st (sandboxed_key sid k) = false →
      goodCounter st sid →
      keys_per_user < counterVal st sid + 1 →
      RedisResource.handle_incr keys_per_user st sid command = Except.ok out →
      alookup out.1 "success" = some (JValue.bool false) ∧
      alookup out.1 "reason" = some (JValue.str "Too many keys") ∧
      counterVal out.2 sid = counterVal st sid) ∧
    (∀ (v : JValue) (ks : List String) (k' : String),
      ks.Nodup → (ks.length : Int) = keys_per_user → k' ∉ ks →
      (∀ r ∈ (runSets dumps keys_per_user sid v [] ks).1,
        alookup r "success" = some (JValue.bool true)) ∧
      (runSets dumps keys_per_user sid v [] ks).1.length = ks.length ∧
      (∀ out : Fields × RedisState,
        RedisResource.handle_set dumps keys_per_user
            (runSets dumps keys_per_user sid v [] ks).2 sid (setCmd k' v) =
          Except.ok out →
        alookup out.1 "success" = some (JValue.bool false) ∧
        alookup out.1 "reason" = some (JValue.str "Too many keys") ∧
        counterVal out.2 sid = keys_per_user)) := by
  have hA : ∀ (st : RedisState) (command : Fields) (k : String)
      (out : Fields × RedisState),
      alookup command "key" = some (JValue.str k) →
      redisExists st (sandboxed_key sid k) = true →
      RedisResource.handle_set dumps keys_per_user st sid command = Except.ok out →
      counterVal out.2 sid = counterVal st sid := by
    intro st command k out hkey hex hout
    rw [handle_set_existing dumps keys_per_user st sid command k hkey hex] at hout
    obtain rfl := (Except.ok.inj hout).symm
    exact counterVal_fset_other st sid _ _ (count_key_ne_sandboxed sid k)
  have hD : ∀ (st : RedisState) (command : Fields) (k : String)
      (out : Fields × RedisState),
      alookup command "key" = some (JValue.str k) →
      redisExists st (sandboxed_key sid k) = false →
      goodCounter st sid →
      keys_per_user < counterVal st sid + 1 →
      RedisResource.handle_set dumps keys_per_user st sid command = Except.ok out →
      alookup out.1 "success" = some (JValue.bool false) ∧
      alookup out.1 "reason" = some (JValue.str "Too many keys") ∧
      counterVal out.2 sid = counterVal st sid := by
    intro st command k out hkey hne hg hq hout
    rw [handle_set_new_over dumps keys_per_user st sid command k hkey hne hg hq] at hout
    obtain rfl := (Except.ok.inj hout).symm
    refine ⟨?_, ?_, ?_⟩
    · simp [too_many_keys, reply_eq, alookup]
    · simp [too_many_keys, reply_eq, alookup]
    · simp
  refine ⟨hA, ?_, ?_, ?_, hD, ?_, ?_⟩
  · intro st command k out hkey hex hrun
    simp only [RedisResource.handle_incr, fieldStr, hkey,
      check_keys_exists keys_per_user st sid _ hex] at hrun
    cases hamt : (alookup command "amount").getD (JValue.num 1) with
    | num n =>
      simp only [hamt] at hrun
      cases hri : redisIncr st (sandboxed_key sid k) n with
      | error e =>
        simp only [hri] at hrun
        simp at hrun
        obtain rfl := hrun.symm
        rfl
      | ok p =>
        simp only [hri] at hrun
        simp at hrun
        obtain rfl := hrun.symm
        have hst2 := redisIncr_ok_state st (sandboxed_key sid k) n p.1 p.2 (by
          rw [hri])
        rw [hst2]
        exact counterVal_fset_other st sid _ _ (count_key_ne_sandboxed sid k)
    | null =>
      simp only [hamt] at hrun
      simp at hrun
      obtain rfl := hrun.symm
      rfl
    | bool b =>
      simp only [hamt] at hrun
      simp at hrun
      obtain rfl := hrun.symm
      rfl
    | str s =>
      simp only [hamt] at hrun
      simp at hrun
      obtain rfl := hrun.symm
      rfl
    | arr elems =>
      simp only [hamt] at hrun
      simp at hrun
      obtain rfl := hrun.symm
      rfl
    | obj fields =>
      simp only [hamt] at hrun
      simp at hrun
      obtain rfl := hrun.symm
      rfl
  · intro st command k out hkey hne hg hq hout
    rw [handle_set_new_ok dumps keys_per_user st sid command k hkey hne hg hq] at hout
    obtain rfl := (Except.ok.inj hout).symm
    constructor
    · rw [redisSet,
        counterVal_fset_other _ sid _ _ (count_key_ne_sandboxed sid k),
        counterVal_fset_ck]
    · simp [reply_eq, alookup]
  · intro st command k out hkey hne hg hq hamt hrun
    have hne1 : alookup (fset st (count_key sid)
        (RVal.int (counterVal st sid + 1))) (sandboxed_key sid k) = none := by
      rw [alookup_fset_ne _ _ _ _ (Ne.symm (count_key_ne_sandboxed sid k))]
      exact alookup_eq_none_of_not_exists st _ hne
    simp only [RedisResource.handle_incr, fieldStr, hkey,
      check_keys_new_ok keys_per_user st sid _ hne hg hq] at hrun
    have hri : ∀ a : Int, redisIncr (fset st (count_key sid)
        (RVal.int (counterVal st sid + 1))) (sandboxed_key sid k) a =
        Except.ok (fset (fset st (count_key sid)
            (RVal.int (counterVal st sid + 1))) (sandboxed_key sid k)
          (RVal.int a), a) := by
      intro a
      simp [redisIncr, hne1]
    rcases hamt with habs | ⟨a, hamt⟩
    · simp only [habs, Option.getD_none, hri 1] at hrun
      simp at hrun
      obtain rfl := hrun.symm
      constructor
      · rw [counterVal_fset_other _ sid _ _ (count_key_ne_sandboxed sid k),
          counterVal_fset_ck]
      · simp [reply_eq, alookup]
    · simp only [hamt, Option.getD_some, hri a] at hrun
      simp at hrun
      obtain rfl := hrun.symm
      constructor
      · rw [counterVal_fset_other _ sid _ _ (count_key_ne_sandboxed sid k),
          counterVal_fset_ck]
      · simp [reply_eq, alookup]
  · intro st command k out hkey hne hg hq hout
    rw [handle_incr_new_over keys_per_user st sid command k hkey hne hg hq] at hout
    obtain rfl := (Except.ok.inj hout).symm
    refine ⟨?_, ?_, ?_⟩
    · simp [too_many_keys, reply_eq, alookup]
    · simp [too_many_keys, reply_eq, alookup]
    · simp
  · intro v ks k' hnd hlen hk'
    have hspec := runSets_spec dumps keys_per_user sid v ks [] []
      (quotaInv_empty sid) hnd (by simp) (by simp [hlen])
    obtain ⟨hok, hcount, hinv⟩ := hspec
    simp only [List.nil_append] at hinv
    obtain ⟨hcnt, hgood, hkeys⟩ := hinv
    refine ⟨hok, hcount, ?_⟩
    intro out hout
    have hne : redisExists (runSets dumps keys_per_user sid v [] ks).2
        (sandboxed_key sid k') = false := by
      cases hB : redisExists (runSets dumps keys_per_user sid v [] ks).2
          (sandboxed_key sid k')
      · rfl
      · exact absurd ((hkeys k').mp hB) hk'
    have hkeyc : alookup (setCmd k' v) "key" = some (JValue.str k') := by
      simp [setCmd, alookup]
    have hq : keys_per_user <
        counterVal (runSets dumps keys_per_user sid v [] ks).2 sid + 1 := by
      rw [hcnt, hlen]
      omega
    have := hD _ _ _ out hkeyc hne hgood hq hout
    rw [hcnt, hlen] at this
    exact this

/-- Witness for `C5_kv_write_quota`: `keys_per_user = 1`; one successful set of
`"k1"`, then the set of `"k2"` fails with `Too many keys` and the counter
stays 1; and with the counter already at 1, an `incr` of the fresh key `"k9"`
is likewise rejected with `Too many keys`. -/
theorem C5_kv_write_quota_witness :
    (["k1"] : List String).Nodup ∧
    alookup (too_many_keys (setCmd "k2" JValue.null)) "success" =
      some (JValue.bool false) ∧
    alookup (too_many_keys (setCmd "k2" JValue.null)) "reason" =
      some (JValue.str "Too many keys") ∧
    counterVal [(count_key "s", RVal.int 1),
      (sandboxed_key "s" "k1", RVal.str "null")] "s" = 1 ∧
    alookup (too_many_keys [("cmd", JValue.str "incr"),
      ("cmd_id", JValue.str "C"), ("reply", JValue.bool false),
      ("key", JValue.str "k9")]) "success" = some (JValue.bool false) ∧
    alookup (too_many_keys [("cmd", JValue.str "incr"),
      ("cmd_id", JValue.str "C"), ("reply", JValue.bool false),
      ("key", JValue.str "k9")]) "reason" = some (JValue.str "Too many keys") :=
  let scen := ((C5_kv_write_quota (fun _ => "null") 1 "s").2.2.2.2.2.2
    JValue.null ["k1"] "k2" (by decide) (by decide) (by decide)).2.2
    (too_many_keys (setCmd "k2" JValue.null),
     [(count_key "s", RVal.int 1), (sandboxed_key "s" "k1", RVal.str "null")])
    rfl
  let inc := (C5_kv_write_quota (fun _ => "null") 1 "s").2.2.2.2.2.1
    [(count_key "s", RVal.int 1)]
    [("cmd", JValue.str "incr"), ("cmd_id", JValue.str "C"),
     ("reply", JValue.bool false), ("key", JValue.str "k9")] "k9"
    (too_many_keys [("cmd", JValue.str "incr"), ("cmd_id", JValue.str "C"),
       ("reply", JValue.bool false), ("key", JValue.str "k9")],
     [(count_key "s", RVal.int 1)])
    rfl rfl (Or.inr ⟨1, rfl⟩) (by decide) rfl
  ⟨by decide, scen.1, scen.2.1, scen.2.2, inc.1, inc.2.1⟩

/-- C6: under one sandbox id, a successful `kv.set` of a JSON value `v`
followed by `kv.get` of the same key returns exactly `v` (given that the json
codec round-trips `v`, which `json.dumps`/`json.loads` do for every
JSON-serializable value); a `kv.get` of a key that was never set replies with
`value = null`; and so does a `kv.get` right after a successful `kv.delete` of
the key. -/
theorem C6_kv_roundtrip (dumps : JValue → String) (loads : String → Option JValue)
    (keys_per_user : Int) (sid : String) :
    (∀ (st st' : RedisState) (command getCmd : Fields) (k : String) (v : JValue)
        (rep : Fields),
      alookup command "key" = some (JValue.str k) →
      (alookup command "value").getD JValue.null = v →
      loads (dumps v) = some v →
      RedisResource.handle_set dumps keys_per_user st sid command =
        Except.ok (rep, st') →
      alookup rep "success" = some (JValue.bool true) →
      alookup getCmd "key" = some (JValue.str k) →
      RedisResource.handle_get loads st' sid getCmd =
        Except.ok (SandboxResource.reply getCmd
          [("success", JValue.bool true), ("value", v)], st')) ∧
    (∀ (st : RedisState) (command : Fields) (k : String),
      alookup command "key" = some (JValue.str k) →
      redisGet st (sandboxed_key sid k) = none →
      RedisResource.handle_get loads st sid command =
        Except.ok (SandboxResource.reply command
          [("success", JValue.bool true), ("value", JValue.null)], st)) ∧
    (∀ (st st' : RedisState) (command : Fields) (k : String) (drep : Fields),
      alookup command "key" = some (JValue.str k) →
      RedisResource.handle_delete st sid command = Except.ok (drep, st') →
      RedisResource.handle_get loads st' sid command =
        Except.ok (SandboxResource.reply command
          [("success", JValue.bool true), ("value", JValue.null)], st')) := by
  have hmiss : ∀ (st : RedisState) (command : Fields) (k : String),
      alookup command "key" = some (JValue.str k) →
      redisGet st (sandboxed_key sid k) = none →
      RedisResource.handle_get loads st sid command =
        Except.ok (SandboxResource.reply command
          [("success", JValue.bool true), ("value", JValue.null)], st) := by
    intro st command k hkey hget
    simp [RedisResource.handle_get, fieldStr, hkey, hget]
  refine ⟨?_, hmiss, ?_⟩
  · intro st st' command getCmd k v rep hkey hval hcodec hset hsucc hgkey
    simp only [RedisResource.handle_set, fieldStr, hkey] at hset
    cases hck : RedisResource.check_keys keys_per_user st sid
        (sandboxed_key sid k) with
    | error e =>
      rw [hck] at hset
      simp at hset
    | ok p =>
      obtain ⟨b, st1⟩ := p
      cases b with
      | false =>
        rw [hck] at hset
        simp at hset
        obtain ⟨hrep, _⟩ := hset
        rw [← hrep] at hsucc
        simp [too_many_keys, reply_eq, alookup] at hsucc
      | true =>
        rw [hck] at hset
        simp at hset
        obtain ⟨_, hst'⟩ := hset
        rw [hval] at hst'
        simp only [RedisResource.handle_get, fieldStr, hgkey]
        have hget : redisGet st' (sandboxed_key sid k) = some (dumps v) := by
          rw [← hst']
          simp [redisGet, redisSet, RVal.asString]
        simp only [hget, hcodec]
  · intro st st' command k drep hkey hdel
    simp only [RedisResource.handle_delete, fieldStr, hkey] at hdel
    have hpair : redisDelete st (sandboxed_key sid k) =
        (aerase st (sandboxed_key sid k), redisExists st (sandboxed_key sid k)) := rfl
    rw [hpair] at hdel
    cases hex : redisExists st (sandboxed_key sid k) with
    | false =>
      rw [hex] at hdel
      simp at hdel
      obtain ⟨_, hst'⟩ := hdel
      refine hmiss st' command k hkey ?_
      rw [← hst']
      simp [redisGet]
    | true =>
      rw [hex] at hdel
      simp only [Bool.if_true_left, Bool.true_eq_false] at hdel
      cases hri : redisIncr (aerase st (sandboxed_key sid k))
          (count_key sid) (-1) with
      | error e =>
        rw [hri] at hdel
        simp at hdel
      | ok p =>
        rw [hri] at hdel
        simp at hdel
        obtain ⟨_, hst'⟩ := hdel
        have hstate := redisIncr_ok_state _ _ _ p.1 p.2 (by rw [hri])
        refine hmiss st' command k hkey ?_
        rw [← hst', hstate]
        rw [redisGet, alookup_fset_ne _ _ _ _
          (Ne.symm (count_key_ne_sandboxed sid k))]
        simp

/-- Witness for `C6_kv_roundtrip`: setting `"k"` to the number 7 (with a codec
that round-trips it) and getting it back. -/
theorem C6_kv_roundtrip_witness :
    (if ("7" : String) = "7" then some (JValue.num 7) else none) =
      some (JValue.num 7) ∧
    RedisResource.handle_get
        (fun s => if s = "7" then some (JValue.num 7) else none)
        [(count_key "s", RVal.int 1), (sandboxed_key "s" "k", RVal.str "7")] "s"
        (setCmd "k" (JValue.num 7)) =
      Except.ok (SandboxResource.reply (setCmd "k" (JValue.num 7))
        [("success", JValue.bool true), ("value", JValue.num 7)],
        [(count_key "s", RVal.int 1), (sandboxed_key "s" "k", RVal.str "7")]) :=
  ⟨rfl,
   (C6_kv_roundtrip (fun _ => "7")
     (fun s => if s = "7" then some (JValue.num 7) else none) 5 "s").1
     [] [(count_key "s", RVal.int 1), (sandboxed_key "s" "k", RVal.str "7")]
     (setCmd "k" (JValue.num 7)) (setCmd "k" (JValue.num 7)) "k" (JValue.num 7)
     (SandboxResource.reply (setCmd "k" (JValue.num 7))
       [("success", JValue.bool true)])
     rfl rfl rfl rfl rfl rfl⟩

/-- C10: for `kv.incr`, a missing `amount` field defaults the increment to 1
(on an existing key the reply then carries the resulting integer, or the
backing-store error); an exception from the backing-store increment never
propagates: the handler replies `success = false` with the error message as
`reason` and the store untouched; on success the reply carries
`success = true` and the resulting integer under `value`. -/
theorem C10_kv_incr (keys_per_user : Int) (sid : String) :
    (∀ (st st2 : RedisState) (command : Fields) (k : String) (value : Int),
      alookup command "key" = some (JValue.str k) →
      alookup command "amount" = none →
      redisExists st (sandboxed_key sid k) = true →
      redisIncr st (sandboxed_key sid k) 1 = Except.ok (st2, value) →
      RedisResource.handle_incr keys_per_user st sid command =
        Except.ok (SandboxResource.reply command
          [("value", JValue.num value), ("success", JValue.bool true)], st2)) ∧
    (∀ (st : RedisState) (command : Fields) (k e : String),
      alookup command "key" = some (JValue.str k) →
      alookup command "amount" = none →
      redisExists st (sandboxed_key sid k) = true →
      redisIncr st (sandboxed_key sid k) 1 = Except.error e →
      RedisResource.handle_incr keys_per_user st sid command =
        Except.ok (SandboxResource.reply command
          [("success", JValue.bool false), ("reason", JValue.str e)], st)) ∧
    (∀ (st st2 : RedisState) (command : Fields) (k : String) (a value : Int),
      alookup command "key" = some (JValue.str k) →
      alookup command "amount" = some (JValue.num a) →
      redisExists st (sandboxed_key sid k) = true →
      redisIncr st (sandboxed_key sid k) a = Except.ok (st2, value) →
      RedisResource.handle_incr keys_per_user st sid command =
        Except.ok (SandboxResource.reply command
          [("value", JValue.num value), ("success", JValue.bool true)], st2)) ∧
    (∀ (st : RedisState) (command : Fields) (k e : String) (a : Int),
      alookup command "key" = some (JValue.str k) →
      alookup command "amount" = some (JValue.num a) →
      redisExists st (sandboxed_key sid k) = true →
      redisIncr st (sandboxed_key sid k) a = Except.error e →
      RedisResource.handle_incr keys_per_user st sid command =
        Except.ok (SandboxResource.reply command
          [("success", JValue.bool false), ("reason", JValue.str e)], st)) := by
  refine ⟨?_, ?_, ?_, ?_⟩
  · intro st st2 command k value hkey habs hex hri
    simp [RedisResource.handle_incr, fieldStr, hkey,
      check_keys_exists keys_per_user st sid _ hex, habs, hri]
  · intro st command k e hkey habs hex hri
    simp [RedisResource.handle_incr, fieldStr, hkey,
      check_keys_exists keys_per_user st sid _ hex, habs, hri]
  · intro st st2 command k a value hkey hamt hex hri
    simp [RedisResource.handle_incr, fieldStr, hkey,
      check_keys_exists keys_per_user st sid _ hex, hamt, hri]
  · intro st command k e a hkey hamt hex hri
    simp [RedisResource.handle_incr, fieldStr, hkey,
      check_keys_exists keys_per_user st sid _ hex, hamt, hri]

/-- Witness for `C10_kv_incr`: incrementing a key holding the non-integer
string `"x"` with no `amount` field yields a failure reply carrying redis's
error message, and the store is unchanged. -/
theorem C10_kv_incr_witness :
    redisExists [(sandboxed_key "s" "k", RVal.str "x")]
      (sandboxed_key "s" "k") = true ∧
    RedisResource.handle_incr 100 [(sandboxed_key "s" "k", RVal.str "x")] "s"
        [("cmd", JValue.str "incr"), ("cmd_id", JValue.str "B"),
         ("reply", JValue.bool false), ("key", JValue.str "k")] =
      Except.ok (SandboxResource.reply
        [("cmd", JValue.str "incr"), ("cmd_id", JValue.str "B"),
         ("reply", JValue.bool false), ("key", JValue.str "k")]
        [("success", JValue.bool false),
         ("reason", JValue.str "value is not an integer or out of range")],
        [(sandboxed_key "s" "k", RVal.str "x")]) :=
  ⟨rfl,
   (C10_kv_incr 100 "s").2.1 [(sandboxed_key "s" "k", RVal.str "x")]
     [("cmd", JValue.str "incr"), ("cmd_id", JValue.str "B"),
      ("reply", JValue.bool false), ("key", JValue.str "k")]
     "k" "value is not an integer or out of range" rfl rfl rfl rfl⟩
